import Mathlib

/-!
# app_process bootstrap (`app_main.cpp`)

A shallow embedding of `src/app_main.cpp`: the helper `setArgv0`, the function `main`
(diagnostic subcommands, compat-layout fixup, argument parsing, safemode gate, process
rename, runtime entry selection) and the `AppRuntime` object that `main` fills in.

Conventions.
* C strings are `String`s; a `char` buffer in memory is a `List Char` in which the first
  `NUL` ends the string.
* `argv[0]` is passed separately from the remaining arguments, so `argc = args.length + 1`.
* Calls to collaborators outside the file are recorded, in program order, in a trace of
  `Event`s; their results come from an `Env` record.
-/

namespace AppMain

/-! ## C strings in memory -/

/-- The terminating byte of a C string. -/
def NUL : Char := Char.ofNat 0

/-- The C string stored at the start of a buffer: the bytes before the first `NUL`. -/
def cstr : List Char → List Char
  | [] => []
  | c :: cs => if c = NUL then [] else c :: cstr cs

/-- libc `strlen`: the number of bytes before the first `NUL`. -/
def strlen (buf : List Char) : Nat := (cstr buf).length

/-- The bytes libc `strlcpy(dst, src, room)` stores at `dst[0..]` when `room ≠ 0`
(BSD semantics): it copies bytes of `src` while more than one byte of room is left and the
source byte is not `NUL`, then stores the terminating `NUL`. -/
def strlcpyCopy : List Char → Nat → List Char
  | _, 0 => []
  | _, 1 => [NUL]
  | [], _ + 2 => [NUL]
  | c :: cs, n + 2 => if c = NUL then [NUL] else c :: strlcpyCopy cs (n + 1)

/-- The bytes libc `strlcpy(dst, src, size)` stores, starting at `dst[0]`: nothing when
`size = 0`, otherwise at most `size - 1` bytes of `src` followed by a `NUL`. -/
def strlcpyBytes (src : List Char) (size : Nat) : List Char :=
  if size = 0 then [] else strlcpyCopy src size

/-- Storing `bytes` at the start of the buffer `dst`; bytes that would fall beyond the end
of the modelled buffer are kept, so an overflow stays visible as a longer buffer. -/
def store (dst bytes : List Char) : List Char :=
  bytes ++ dst.drop bytes.length

/-- libc `strlcpy(dst, src, size)`, as the buffer `dst` after the call. -/
def strlcpy (dst src : List Char) (size : Nat) : List Char :=
  store dst (strlcpyBytes src size)

/-- The function `setArgv0(argv0, newArgv0)`, whose body is
`strlcpy(argv0, newArgv0, strlen(argv0))`. The result is the memory at `argv0` after the
call. -/
def setArgv0 (argv0 newArgv0 : List Char) : List Char :=
  strlcpy argv0 newArgv0 (strlen argv0)

/-! ## The argument scanning loop of `main` -/

/-- The local variables of `main` that the scanning loop reads and writes. -/
structure Locals where
  i : Nat
  zygote : Bool
  startSystemServer : Bool
  application : Bool
  parentDir : Option String
  niceName : Option String
  className : Option String
  deriving DecidableEq

/-- The locals as declared before the loop, with `i` the value returned by
`runtime.addVmArguments`. -/
def Locals.init (i : Nat) : Locals :=
  { i := i, zygote := false, startSystemServer := false, application := false,
    parentDir := none, niceName := none, className := none }

/-- Ways in which the model of the loop can fail to produce a result. -/
inductive LoopError where
  | readOutOfBounds (i : Nat)
  | outOfFuel
  deriving DecidableEq

/-- The test `strncmp(arg, "--nice-name=", 12) == 0`. -/
def isNiceNameArg (arg : String) : Bool :=
  arg.data.take 12 == "--nice-name=".data

/-- The pointer `arg + 12` read as a C string. -/
def niceNameSuffix (arg : String) : String :=
  String.mk (arg.data.drop 12)

/-- The loop `while (i < argc) { const char* arg = argv[i++]; ... }` of `main`.
The first argument bounds the number of iterations; reading `argv` outside the vector is
an error. -/
def parseLoop (argc : Nat) (argv : List String) : Nat → Locals → Except LoopError Locals
  | 0, st => if st.i < argc then .error .outOfFuel else .ok st
  | fuel + 1, st =>
    if st.i < argc then
      match argv[st.i]? with
      | none => .error (.readOutOfBounds st.i)
      | some arg =>
        let st := { st with i := st.i + 1 }
        if st.parentDir = none then
          parseLoop argc argv fuel { st with parentDir := some arg }
        else if arg = "--zygote" then
          parseLoop argc argv fuel { st with zygote := true, niceName := some "zygote" }
        else if arg = "--start-system-server" then
          parseLoop argc argv fuel { st with startSystemServer := true }
        else if arg = "--application" then
          parseLoop argc argv fuel { st with application := true }
        else if isNiceNameArg arg then
          parseLoop argc argv fuel { st with niceName := some (niceNameSuffix arg) }
        else
          .ok { st with className := some arg }
    else .ok st

/-! ## Collaborators, process state and the runtime object -/

/-- A call that `main` or a callback of `AppRuntime` makes to a collaborator outside
`app_main.cpp`, with its arguments. The accessors `ProcessState::self()`,
`IPCThreadState::self()` and `AndroidRuntime::getRuntime()` are not recorded. -/
inductive Event where
  | printf (text : String)
  | fprintfStderr (text : String)
  | xposedSkipSafemodeDelay
  | detectSafemodeTrigger (skipDelay : Bool)
  | propertyGet (key dflt : String)
  | getenv (name : String)
  | personality (persona : Nat)
  | setenv (name value : String)
  | execv (path : String) (argv : List String)
  | unsetenv (name : String)
  | dlerror
  | dlsym (symbol : String)
  | ALOGE (text : String)
  | addVmArguments (argc : Nat) (argv : List String)
  | xposedDisableSafemode
  | disableXposed
  | set_process_name (name : String)
  | xposedInfo
  | xposedEnforceDalvik
  | isXposedDisabled
  | xposedShouldIgnoreCommand (className : Option String) (argc : Nat) (argv : List String)
  | runtimeStart (className startArg : String)
  | LOG_ALWAYS_FATAL (text : String)
  | xposedOnVmCreated (className : Option String)
  | toSlashClassName (className : String)
  | FindClass (name : String)
  | free
  | NewGlobalRef (cls : Option Nat)
  | ALOGV (text : String)
  | startThreadPool
  | callMain (className : Option String) (cls : Option Nat) (argc : Int)
      (argv : Option (List String))
  | stopProcess
  | atrace_set_tracing_enabled (enabled : Bool)
  | AndroidRuntime_onExit (code : Int)
  deriving DecidableEq

/-- What the collaborators outside `app_main.cpp` answer during one run of `main`, and the
constants of headers that are not part of the file.

* `compatFixupCompiled`: `PLATFORM_SDK_VERSION >= 16` and `__arm__` both hold at build time.
* `qemuProperty`: the value `property_get("ro.kernel.qemu", value, "")` stores.
* `markerEnv`: `getenv("NO_ADDR_COMPAT_LAYOUT_FIXUP")` at process start.
* `persona`: the value `personality(0xFFFFFFFF)` returns at process start.
* `sdkVersion`: `atoi` of the property `ro.build.version.sdk`.
* `isXposedDisabled b`: the answer of `isXposedDisabled()` when `disableXposed()` has
  (`b = true`) or has not (`b = false`) been called earlier in this run. -/
structure Env where
  XPOSED_VERSION : String
  XPOSED_CLASS_DOTS : String
  compatFixupCompiled : Bool
  qemuProperty : String
  markerEnv : Option String
  persona : Nat
  execvSucceeds : Bool
  sdkVersion : Int
  atraceResolved : Bool
  atraceError : Option String
  addVmArguments : Nat → List String → Nat
  xposedSkipSafemodeDelay : Bool
  xposedDisableSafemode : Bool
  detectSafemodeTrigger : Bool → Bool
  isXposedDisabled : Bool → Bool
  xposedShouldIgnoreCommand : Option String → Nat → List String → Bool

/-- The global variables `main` and `initTypePointers` write: `mArgC`, `mArgV`, `mArgLen`
(declared in ProcessState.cpp), `keepLoadingXposed` (declared in xposed.h) and the two
globals of `app_main.cpp`. `mArgV` holds the vector it points to, `none` for `NULL`;
`PTR_atrace_set_tracing_enabled` records whether the pointer is non-`NULL`. -/
structure Globals where
  mArgC : Int
  mArgV : Option (List String)
  mArgLen : Int
  RUNNING_PLATFORM_SDK_VERSION : Int
  PTR_atrace_set_tracing_enabled : Bool
  keepLoadingXposed : Bool
  deriving DecidableEq

/-- The state of the process outside the locals of `main`: the calls made so far, the
globals, the environment variable `NO_ADDR_COMPAT_LAYOUT_FIXUP`, the personality, the
memory at `argv[0]`, and whether `disableXposed()` has been called. -/
structure Proc where
  trace : List Event
  globals : Globals
  markerEnv : Option String
  persona : Nat
  argv0 : List Char
  disableXposedCalled : Bool
  deriving DecidableEq

/-- Record a call at the end of the trace. -/
def Proc.emit (p : Proc) (e : Event) : Proc :=
  { p with trace := p.trace ++ [e] }

/-- The data members of `AppRuntime`. `mClass` is an opaque JNI reference, `mArgV` the
vector it points to; `none` stands for `NULL`. -/
structure AppRuntime where
  mParentDir : Option String
  mClassName : Option String
  mClass : Option Nat
  mArgC : Int
  mArgV : Option (List String)
  deriving DecidableEq

/-- The constructor `AppRuntime::AppRuntime()`. -/
def AppRuntime.init : AppRuntime :=
  { mParentDir := none, mClassName := none, mClass := none, mArgC := 0, mArgV := none }

/-- How a run of `main` ends: it returns a code, or `execv` replaced the process image
(control never comes back), or the model met behaviour the C++ standard leaves undefined. -/
inductive Outcome where
  | returned (code : Int)
  | imageReplaced
  | undefined (e : LoopError)
  deriving DecidableEq

/-- The result of a run of `main`: how it ended, the process state, and the `runtime`
object if it was constructed. -/
structure MainResult where
  outcome : Outcome
  proc : Proc
  runtime : Option AppRuntime
  deriving DecidableEq

/-- The constant `ADDR_COMPAT_LAYOUT` of `<sys/personality.h>`. -/
def ADDR_COMPAT_LAYOUT : Nat := 0x0200000

/-- Modelled from the spec: the macro `LOG_ALWAYS_FATAL` of utils/Log.h, which is not part
of `app_main.cpp`. The spec has the error "logged at always fatal severity before return",
so the call is recorded and control goes on to the `return` that follows it. -/
def LOG_ALWAYS_FATAL (text : String) (p : Proc) : Proc :=
  p.emit (.LOG_ALWAYS_FATAL text)

/-- The function `app_usage()`. -/
def app_usage (env : Env) (p : Proc) : Proc :=
  (p.emit (.fprintfStderr
      "Usage: app_process [java-options] cmd-dir start-class-name [options]\n")).emit
    (.fprintfStderr ("   with Xposed support (version " ++ env.XPOSED_VERSION ++ ")\n"))

/-- The function `initTypePointers()`. -/
def initTypePointers (env : Env) (p : Proc) : Proc :=
  let p := p.emit (.propertyGet "ro.build.version.sdk" "0")
  let p := { p with globals := { p.globals with RUNNING_PLATFORM_SDK_VERSION := env.sdkVersion } }
  let p := p.emit .dlerror
  if (18 : Int) ≤ p.globals.RUNNING_PLATFORM_SDK_VERSION then
    let p := p.emit (.dlsym "atrace_set_tracing_enabled")
    let p := { p with globals :=
      { p.globals with PTR_atrace_set_tracing_enabled := env.atraceResolved } }
    let p := p.emit .dlerror
    match env.atraceError with
    | some error =>
      p.emit (.ALOGE ("Could not find address for function atrace_set_tracing_enabled: "
        ++ error))
    | none => p
  else p

/-! ## `main` -/

/-- The block of `main` under `#if PLATFORM_SDK_VERSION >= 16` / `#ifdef __arm__`: the
compat memory layout fixup. `some o` means `main` ends here with outcome `o`; `none` means
control goes on to `initTypePointers()`. -/
def compatFixup (env : Env) (argv : List String) (p : Proc) : Option Outcome × Proc :=
  if env.compatFixupCompiled then
    let p := p.emit (.propertyGet "ro.kernel.qemu" "")
    let is_qemu : Bool := env.qemuProperty = "1"
    let p := p.emit (.getenv "NO_ADDR_COMPAT_LAYOUT_FIXUP")
    if p.markerEnv = none ∧ is_qemu = false then
      let current := p.persona
      let p := p.emit (.personality 0xFFFFFFFF)
      if current &&& ADDR_COMPAT_LAYOUT = 0 then
        let p := { p.emit (.personality (current ||| ADDR_COMPAT_LAYOUT)) with
          persona := current ||| ADDR_COMPAT_LAYOUT }
        let p := { p.emit (.setenv "NO_ADDR_COMPAT_LAYOUT_FIXUP" "1") with
          markerEnv := some "1" }
        let p := p.emit (.execv "/system/bin/app_process" argv)
        if env.execvSucceeds then (some .imageReplaced, p) else (some (.returned (-1)), p)
      else
        (none, { p.emit (.unsetenv "NO_ADDR_COMPAT_LAYOUT_FIXUP") with markerEnv := none })
    else
      (none, { p.emit (.unsetenv "NO_ADDR_COMPAT_LAYOUT_FIXUP") with markerEnv := none })
  else (none, p)

/-- The statement `if (zygote) { if (!xposedDisableSafemode() &&
xposed::detectSafemodeTrigger(xposedSkipSafemodeDelay())) disableXposed(); }`. -/
def safemodeGate (env : Env) (zygote : Bool) (p : Proc) : Proc :=
  if zygote then
    let p := p.emit .xposedDisableSafemode
    if env.xposedDisableSafemode = false then
      let p := p.emit .xposedSkipSafemodeDelay
      let p := p.emit (.detectSafemodeTrigger env.xposedSkipSafemodeDelay)
      if env.detectSafemodeTrigger env.xposedSkipSafemodeDelay then
        { p.emit .disableXposed with disableXposedCalled := true }
      else p
    else p
  else p

/-- The statement `if (niceName && *niceName) { setArgv0(argv0, niceName);
set_process_name(niceName); }`. -/
def renameProcess (niceName : Option String) (p : Proc) : Proc :=
  match niceName with
  | some name =>
    if cstr name.data ≠ [] then
      { p with argv0 := setArgv0 p.argv0 name.data }.emit (.set_process_name name)
    else p
  | none => p

/-- The assignment `keepLoadingXposed = !isXposedDisabled() &&
!xposedShouldIgnoreCommand(className, argc, argv)`, with the calls it makes. -/
def computeKeepLoading (env : Env) (className : Option String) (argc : Nat)
    (argv : List String) (p : Proc) : Proc :=
  let p := p.emit .isXposedDisabled
  if env.isXposedDisabled p.disableXposedCalled = false then
    let p := p.emit (.xposedShouldIgnoreCommand className argc argv)
    { p with globals := { p.globals with
        keepLoadingXposed := !env.xposedShouldIgnoreCommand className argc argv } }
  else
    { p with globals := { p.globals with keepLoadingXposed := false } }

/-- The final `if (zygote) ... else if (className) ... else ...` of `main`. After
`runtime.start` returns, control reaches the end of `main`, which returns 0. -/
def startRuntime (env : Env) (argc : Nat) (argv : List String) (st : Locals)
    (runtime : AppRuntime) (p : Proc) : MainResult :=
  if st.zygote then
    let p := p.emit (.runtimeStart
      (if p.globals.keepLoadingXposed then env.XPOSED_CLASS_DOTS
        else "com.android.internal.os.ZygoteInit")
      (if st.startSystemServer then "start-system-server" else ""))
    { outcome := .returned 0, proc := p, runtime := some runtime }
  else
    match st.className with
    | some className =>
      let runtime := { runtime with mClassName := some className }
      let runtime := { runtime with mArgC := (argc : Int) - (st.i : Int) }
      let runtime := { runtime with mArgV := some (argv.drop st.i) }
      let p := p.emit (.runtimeStart
        (if p.globals.keepLoadingXposed then env.XPOSED_CLASS_DOTS
          else "com.android.internal.os.RuntimeInit")
        (if st.application then "application" else "tool"))
      { outcome := .returned 0, proc := p, runtime := some runtime }
    | none =>
      let p := p.emit (.fprintfStderr "Error: no class name or --zygote supplied.\n")
      let p := app_usage env p
      let p := LOG_ALWAYS_FATAL "app_process: no class name or --zygote supplied." p
      { outcome := .returned 10, proc := p, runtime := some runtime }

/-- The part of `main` after the scanning loop, from the safemode gate on. Here `argc` and
`argv` are the decremented count and the advanced vector. -/
def afterParse (env : Env) (argc : Nat) (argv : List String) (st : Locals)
    (runtime : AppRuntime) (p : Proc) : MainResult :=
  let p := safemodeGate env st.zygote p
  let p := renameProcess st.niceName p
  let runtime := { runtime with mParentDir := st.parentDir }
  let p := p.emit .xposedInfo
  let p := p.emit .xposedEnforceDalvik
  let p := computeKeepLoading env st.className argc argv p
  startRuntime env argc argv st runtime p

/-- The statements of `main` from `initTypePointers()` up to the call
`runtime.addVmArguments(argc, argv)`: the three globals of ProcessState.cpp are set from
the full vector `argv0 :: args`, then `argc--; argv++` and the call is made. -/
def beforeParse (env : Env) (argv0 : String) (args : List String) (p : Proc) : Proc :=
  let p := initTypePointers env p
  let p := { p with globals := { p.globals with
    mArgC := ((args.length + 1 : Nat) : Int),
    mArgV := some (argv0 :: args),
    mArgLen := (((argv0 :: args).map (fun (a : String) => strlen a.data + 1)).sum : Int) - 1 } }
  p.emit (.addVmArguments args.length args)

/-- The scanning loop as `main` runs it on `args` (the vector after `argc--; argv++`):
`i` starts at the value `runtime.addVmArguments(argc, argv)` returned. -/
def mainScan (env : Env) (args : List String) : Except LoopError Locals :=
  parseLoop args.length args (args.length - env.addVmArguments args.length args)
    (Locals.init (env.addVmArguments args.length args))

/-- The part of `main` from `initTypePointers()` on. `argv0 :: args` is the vector `main`
received. -/
def bootstrap (env : Env) (argv0 : String) (args : List String) (p : Proc) : MainResult :=
  let p := beforeParse env argv0 args p
  let runtime := AppRuntime.init
  match mainScan env args with
  | .error e => { outcome := .undefined e, proc := p, runtime := some runtime }
  | .ok st => afterParse env args.length args st runtime p

/-- The process state when `main` is entered: no call made yet, the globals as the caller
left them, the environment and personality inherited, `argv[0]` stored as a C string. -/
def Proc.start (env : Env) (g : Globals) (argv0 : String) : Proc :=
  { trace := [], globals := g, markerEnv := env.markerEnv, persona := env.persona,
    argv0 := argv0.data ++ [NUL], disableXposedCalled := false }

/-- The function `main(argc, argv)` with `argv = argv0 :: args` and `argc = args.length + 1`,
started with the globals `g`. -/
def main (env : Env) (g : Globals) (argv0 : String) (args : List String) : MainResult :=
  let argc := args.length + 1
  let p := Proc.start env g argv0
  if argc = 2 ∧ args[0]? = some "--xposedversion" then
    { outcome := .returned 0,
      proc := p.emit (.printf ("Xposed version: " ++ env.XPOSED_VERSION ++ "\n")),
      runtime := none }
  else if argc = 2 ∧ args[0]? = some "--xposedtestsafemode" then
    let p := p.emit (.printf "Testing Xposed safemode trigger\n")
    let p := p.emit .xposedSkipSafemodeDelay
    let p := p.emit (.detectSafemodeTrigger env.xposedSkipSafemodeDelay)
    if env.detectSafemodeTrigger env.xposedSkipSafemodeDelay then
      { outcome := .returned 0, proc := p.emit (.printf "Safemode triggered\n"),
        runtime := none }
    else
      { outcome := .returned 0, proc := p.emit (.printf "Safemode not triggered\n"),
        runtime := none }
  else
    match compatFixup env (argv0 :: args) p with
    | (some o, p) => { outcome := o, proc := p, runtime := none }
    | (none, p) => bootstrap env argv0 args p

/-! ## Re-execution after the compat fixup -/

/-- The environment of the process image that a successful `execv` starts: environment
variables and the personality are preserved across `execv`, so the new image sees the
marker variable and the personality as the replaced image left them. -/
def Env.afterExec (env : Env) (p : Proc) : Env :=
  { env with markerEnv := p.markerEnv, persona := p.persona }

/-- A run of the process: `main` is executed, and when it ends because `execv` replaced the
image, the new image executes `main` again with the same vector, its statics
re-initialised to `g`, and the environment left by the replaced image. The result is the
number of image replacements performed and the result of the last pass; `none` means the
bound on the number of passes was reached. -/
def run : Nat → Env → Globals → String → List String → Option (Nat × MainResult)
  | 0, _, _, _, _ => none
  | fuel + 1, env, g, argv0, args =>
    match (main env g argv0 args).outcome with
    | .imageReplaced =>
      match run fuel (env.afterExec (main env g argv0 args).proc) g argv0 args with
      | some (n, r) => some (n + 1, r)
      | none => none
    | _ => some (0, main env g argv0 args)

/-! ## The callbacks of `AppRuntime` -/

/-- What the JNI environment and the helpers outside `app_main.cpp` answer while the
callbacks run: `xposedOnVmCreated(env, mClassName)`, `toSlashClassName(mClassName)`,
`env->FindClass(name)` and `env->NewGlobalRef(cls)`; `none` stands for `NULL`. -/
structure Jni where
  xposedOnVmCreated : Option String → Bool
  toSlashClassName : String → String
  FindClass : String → Option Nat
  NewGlobalRef : Option Nat → Option Nat

/-- The `runtime` object together with the process state, as the callbacks see them. -/
structure RuntimeState where
  runtime : AppRuntime
  proc : Proc
  deriving DecidableEq

/-- The character used to quote the class name in the error message of `onVmCreated`. -/
def quote : String := String.singleton (Char.ofNat 39)

/-- The callback `AppRuntime::onVmCreated(JNIEnv* env)`. -/
def onVmCreated (jni : Jni) (s : RuntimeState) : RuntimeState :=
  let p := s.proc.emit (.xposedOnVmCreated s.runtime.mClassName)
  let p := { p with globals := { p.globals with
    keepLoadingXposed := jni.xposedOnVmCreated s.runtime.mClassName } }
  match s.runtime.mClassName with
  | none => { runtime := s.runtime, proc := p }
  | some mClassName =>
    let p := p.emit (.toSlashClassName mClassName)
    let slashClassName := jni.toSlashClassName mClassName
    let p := p.emit (.FindClass slashClassName)
    let mClass := jni.FindClass slashClassName
    let p := if mClass = none then
        p.emit (.ALOGE ("ERROR: could not find class " ++ quote ++ mClassName ++ quote ++ "\n"))
      else p
    let p := p.emit .free
    let p := p.emit (.NewGlobalRef mClass)
    let mClass := jni.NewGlobalRef mClass
    let p := if mClass = none then
        p.emit (.ALOGE ("ERROR: could not find class " ++ quote ++ mClassName ++ quote ++ "\n"))
      else p
    { runtime := { s.runtime with mClass := mClass }, proc := p }

/-- The callback `AppRuntime::onStarted()`. -/
def onStarted (s : RuntimeState) : RuntimeState :=
  let p := s.proc.emit (.ALOGV "App process: starting thread pool.\n")
  let p := p.emit .startThreadPool
  let p := p.emit (.callMain s.runtime.mClassName s.runtime.mClass s.runtime.mArgC
    s.runtime.mArgV)
  let p := p.emit .stopProcess
  { runtime := s.runtime, proc := p }

/-- The callback `AppRuntime::onZygoteInit()`. -/
def onZygoteInit (s : RuntimeState) : RuntimeState :=
  let p := if s.proc.globals.PTR_atrace_set_tracing_enabled then
      s.proc.emit (.atrace_set_tracing_enabled true)
    else s.proc
  let p := p.emit (.ALOGV "App process: starting thread pool.\n")
  let p := p.emit .startThreadPool
  { runtime := s.runtime, proc := p }

/-- The callback `AppRuntime::onExit(int code)`. -/
def onExit (code : Int) (s : RuntimeState) : RuntimeState :=
  let p := if s.runtime.mClassName = none then s.proc.emit .stopProcess else s.proc
  let p := p.emit (.AndroidRuntime_onExit code)
  { runtime := s.runtime, proc := p }

/-- The four callbacks the external runtime can invoke. -/
inductive Callback where
  | onVmCreated
  | onStarted
  | onZygoteInit
  | onExit (code : Int)
  deriving DecidableEq

/-- Invoking one callback. -/
def Callback.invoke (jni : Jni) : Callback → RuntimeState → RuntimeState
  | .onVmCreated, s => AppMain.onVmCreated jni s
  | .onStarted, s => AppMain.onStarted s
  | .onZygoteInit, s => AppMain.onZygoteInit s
  | .onExit code, s => AppMain.onExit code s

/-- Invoking a sequence of callbacks in order. -/
def drive (jni : Jni) (cbs : List Callback) (s : RuntimeState) : RuntimeState :=
  cbs.foldl (fun s cb => cb.invoke jni s) s

/-- Modelled from the spec: the order in which the external runtime (AndroidRuntime, not
part of `app_main.cpp`) invokes the callbacks on the process that `main` started. The
spec (4.6) has VmCreated first, Started as "the terminal productive state for non-Zygote
mode", ZygoteInit only in forked children, and Exit on shutdown: the supervisor sees
`onVmCreated, onExit`, an application or tool `onVmCreated, onStarted, onExit`. -/
def lifecycle (zygote : Bool) (code : Int) : List Callback :=
  if zygote then [.onVmCreated, .onExit code] else [.onVmCreated, .onStarted, .onExit code]

/-! ## Example environments -/

/-- A build without the compat fixup in which no gate fires and `addVmArguments` consumes
nothing. -/
def quietEnv : Env :=
  { XPOSED_VERSION := "54", XPOSED_CLASS_DOTS := "de.robv.android.xposed.XposedBridge",
    compatFixupCompiled := false, qemuProperty := "", markerEnv := none, persona := 0,
    execvSucceeds := true, sdkVersion := 19, atraceResolved := true, atraceError := none,
    addVmArguments := fun _ _ => 0,
    xposedSkipSafemodeDelay := false, xposedDisableSafemode := false,
    detectSafemodeTrigger := fun _ => false,
    isXposedDisabled := fun b => b,
    xposedShouldIgnoreCommand := fun _ _ _ => false }

/-- A `quietEnv` in which the safemode trigger fires. -/
def triggeredEnv : Env :=
  { quietEnv with detectSafemodeTrigger := fun _ => true }

/-- A build with the compat fixup compiled in, started without the marker variable, outside
the emulator and with the compat bit unset; `execv` succeeds. -/
def armEnv : Env :=
  { quietEnv with compatFixupCompiled := true }

/-- A JNI environment in which every class is found and the extension stays loaded. -/
def quietJni : Jni :=
  { xposedOnVmCreated := fun _ => true,
    toSlashClassName := fun c => String.mk (c.data.map (fun ch => if ch = '.' then '/' else ch)),
    FindClass := fun _ => some 1,
    NewGlobalRef := fun c => c }

/-- A JNI environment in which `xposedOnVmCreated` answers false. -/
def refusingJni : Jni :=
  { quietJni with xposedOnVmCreated := fun _ => false }

/-- Globals as zero-initialised statics. -/
def zeroGlobals : Globals :=
  { mArgC := 0, mArgV := none, mArgLen := 0, RUNNING_PLATFORM_SDK_VERSION := 0,
    PTR_atrace_set_tracing_enabled := false, keepLoadingXposed := false }

/-! ## Vocabulary for stating properties of the scan -/

/-- The tokens the scan recognises as flags once `parentDir` is set. -/
def isFlagArg (arg : String) : Bool :=
  arg = "--zygote" || arg = "--start-system-server" || arg = "--application" ||
    isNiceNameArg arg

/-- The effect of one loop iteration on a recognised flag (with `parentDir` already set). -/
def applyFlag (st : Locals) (arg : String) : Locals :=
  let st := { st with i := st.i + 1 }
  if arg = "--zygote" then { st with zygote := true, niceName := some "zygote" }
  else if arg = "--start-system-server" then { st with startSystemServer := true }
  else if arg = "--application" then { st with application := true }
  else if isNiceNameArg arg then { st with niceName := some (niceNameSuffix arg) }
  else st

/-- What the loop computes, read off the token list: the first token at or after `i0` is
`parentDir`, the longest run of recognised flags after it is applied in order, and the
token after that run, if any, is `className`. -/
def scanResult (argv : List String) (i0 : Nat) : Locals :=
  match argv.drop i0 with
  | [] => Locals.init i0
  | p :: rest =>
    let st := (rest.takeWhile isFlagArg).foldl applyFlag
      { Locals.init i0 with i := i0 + 1, parentDir := some p }
    match rest.dropWhile isFlagArg with
    | [] => st
    | cls :: _ => { st with i := st.i + 1, className := some cls }

/-- The tokens after `parentDir` that the loop recognises as flags before it stops, when
the scan starts at index `i0`. -/
def scannedFlags (argv : List String) (i0 : Nat) : List String :=
  (argv.drop (i0 + 1)).takeWhile isFlagArg

/-- The value of `niceName` after the loop has applied the flags `flags` in order, starting
from `NULL`: the last of the `--zygote` / `--nice-name=` tokens decides. -/
def niceNameOf (flags : List String) : Option String :=
  flags.foldl (fun acc f =>
    if f = "--zygote" then some "zygote"
    else if isNiceNameArg f then some (niceNameSuffix f)
    else acc) none

/-- The entry class as the spec words it: the extension class when the extension is kept,
otherwise the platform class of the mode. -/
def entryClass (xposedClass : String) (zygote keepLoadingXposed : Bool) : String :=
  if keepLoadingXposed then xposedClass
  else if zygote then "com.android.internal.os.ZygoteInit"
  else "com.android.internal.os.RuntimeInit"

/-- The calls `main` makes before the scanning loop. -/
def Event.early : Event → Bool
  | .propertyGet _ _ => true
  | .getenv _ => true
  | .personality _ => true
  | .setenv _ _ => true
  | .execv _ _ => true
  | .unsetenv _ => true
  | .dlerror => true
  | .dlsym _ => true
  | .ALOGE _ => true
  | .addVmArguments _ _ => true
  | _ => false

/-- Whether a call is a call of `runtime.start`. -/
def Event.isRuntimeStart : Event → Bool
  | .runtimeStart _ _ => true
  | _ => false

/-- Whether a call is `IPCThreadState::self()->stopProcess()`. -/
def Event.isStopProcess : Event → Bool
  | .stopProcess => true
  | _ => false

/-- The number of calls to `stopProcess` in a trace. -/
def stopCalls (t : List Event) : Nat :=
  t.countP Event.isStopProcess

/-- The number of calls to `runtime.start` in a trace. -/
def startCalls (t : List Event) : Nat :=
  t.countP Event.isRuntimeStart

/-! ## The scanning loop: basic facts -/

theorem parseLoop_done (argc : Nat) (argv : List String) (fuel : Nat) (st : Locals)
    (h : ¬ st.i < argc) : parseLoop argc argv fuel st = .ok st := by
  cases fuel <;> simp [parseLoop, h]

theorem parseLoop_parent (argc : Nat) (argv : List String) (fuel : Nat) (st : Locals)
    (arg : String) (hi : st.i < argc) (hget : argv[st.i]? = some arg)
    (hp : st.parentDir = none) :
    parseLoop argc argv (fuel + 1) st =
      parseLoop argc argv fuel { st with i := st.i + 1, parentDir := some arg } := by
  simp [parseLoop, hi, hget, hp]

theorem parseLoop_flag (argc : Nat) (argv : List String) (fuel : Nat) (st : Locals)
    (arg : String) (hi : st.i < argc) (hget : argv[st.i]? = some arg)
    (hp : st.parentDir ≠ none) (hf : isFlagArg arg = true) :
    parseLoop argc argv (fuel + 1) st = parseLoop argc argv fuel (applyFlag st arg) := by
  simp only [isFlagArg, Bool.or_eq_true, decide_eq_true_eq] at hf
  simp only [parseLoop, hi, hget, if_true, if_neg hp, applyFlag]
  by_cases h1 : arg = "--zygote"
  · simp [h1]
  by_cases h2 : arg = "--start-system-server"
  · simp [h1, h2]
  by_cases h3 : arg = "--application"
  · simp [h1, h2, h3]
  have h4 : isNiceNameArg arg = true := by simpa [h1, h2, h3] using hf
  simp [h1, h2, h3, h4]

theorem parseLoop_class (argc : Nat) (argv : List String) (fuel : Nat) (st : Locals)
    (arg : String) (hi : st.i < argc) (hget : argv[st.i]? = some arg)
    (hp : st.parentDir ≠ none) (hf : isFlagArg arg = false) :
    parseLoop argc argv (fuel + 1) st =
      .ok { st with i := st.i + 1, className := some arg } := by
  simp only [isFlagArg, Bool.or_eq_false_iff, decide_eq_false_iff_not] at hf
  obtain ⟨⟨⟨h1, h2⟩, h3⟩, h4⟩ := hf
  simp [parseLoop, hi, hget, hp, h1, h2, h3, h4]

theorem applyFlag_i (st : Locals) (arg : String) : (applyFlag st arg).i = st.i + 1 := by
  unfold applyFlag; dsimp only; split_ifs <;> rfl

theorem applyFlag_parentDir (st : Locals) (arg : String) :
    (applyFlag st arg).parentDir = st.parentDir := by
  unfold applyFlag; dsimp only; split_ifs <;> rfl

theorem applyFlag_className (st : Locals) (arg : String) :
    (applyFlag st arg).className = st.className := by
  unfold applyFlag; dsimp only; split_ifs <;> rfl

theorem foldl_applyFlag_i (flags : List String) (st : Locals) :
    (flags.foldl applyFlag st).i = st.i + flags.length := by
  induction flags generalizing st with
  | nil => simp
  | cons f fs ih => simp [ih, applyFlag_i]; omega

theorem foldl_applyFlag_parentDir (flags : List String) (st : Locals) :
    (flags.foldl applyFlag st).parentDir = st.parentDir := by
  induction flags generalizing st with
  | nil => simp
  | cons f fs ih => simp [ih, applyFlag_parentDir]

theorem foldl_applyFlag_className (flags : List String) (st : Locals) :
    (flags.foldl applyFlag st).className = st.className := by
  induction flags generalizing st with
  | nil => simp
  | cons f fs ih => simp [ih, applyFlag_className]

/-- A run of recognised flags is consumed one iteration per flag. -/
theorem parseLoop_flags (argv : List String) (flags : List String) :
    ∀ (pre tail : List String) (st : Locals) (fuel : Nat),
      st.parentDir ≠ none → st.i = pre.length → argv = pre ++ flags ++ tail →
      (∀ f ∈ flags, isFlagArg f = true) →
      parseLoop argv.length argv (fuel + flags.length) st =
        parseLoop argv.length argv fuel (flags.foldl applyFlag st) := by
  induction flags with
  | nil => intro pre tail st fuel _ _ _ _; simp
  | cons f fs ih =>
    intro pre tail st fuel hp hi hargv hall
    have hlt : st.i < argv.length := by
      rw [hargv, hi]; simp
    have hget : argv[st.i]? = some f := by
      rw [hargv, hi, List.append_assoc, List.getElem?_append_right (Nat.le_refl _)]
      simp
    have hstep := parseLoop_flag argv.length argv (fuel + fs.length) st f hlt hget hp
      (hall f (List.mem_cons_self _ _))
    have hrec := ih (pre ++ [f]) tail (applyFlag st f) fuel
      (by rw [applyFlag_parentDir]; exact hp)
      (by rw [applyFlag_i, hi]; simp)
      (by rw [hargv]; simp)
      (fun g hg => hall g (List.mem_cons_of_mem _ hg))
    rw [List.length_cons, ← Nat.add_assoc, hstep, hrec, List.foldl_cons]

/-- The loop, given fuel for every remaining token, returns the locals described by
`scanResult`. -/
theorem parseLoop_eq_scanResult (argv : List String) (i0 : Nat) :
    parseLoop argv.length argv (argv.length - i0) (Locals.init i0) =
      .ok (scanResult argv i0) := by
  by_cases hi0 : i0 < argv.length
  · have hsplit : argv = argv.take i0 ++ argv.drop i0 := (List.take_append_drop i0 argv).symm
    cases hd : argv.drop i0 with
    | nil =>
      have := congrArg List.length hd
      simp at this; omega
    | cons p rest =>
      have hargv : argv = argv.take i0 ++ p :: rest := by rw [← hd]; exact hsplit
      have htake : (argv.take i0).length = i0 := by
        simp [List.length_take, Nat.min_eq_left (Nat.le_of_lt hi0)]
      have hlen : argv.length = i0 + 1 + rest.length := by
        have := congrArg List.length hargv
        rw [List.length_append, htake, List.length_cons] at this
        omega
      have hget : argv[(Locals.init i0).i]? = some p := by
        show argv[i0]? = some p
        rw [hargv]
        rw [List.getElem?_append_right (by rw [htake])]
        simp [htake]
      have hrest : rest.takeWhile isFlagArg ++ rest.dropWhile isFlagArg = rest :=
        List.takeWhile_append_dropWhile isFlagArg rest
      have hfuel : argv.length - i0 = (rest.dropWhile isFlagArg).length +
          (rest.takeWhile isFlagArg).length + 1 := by
        have h1 := congrArg List.length hrest
        rw [List.length_append] at h1
        omega
      rw [hfuel, parseLoop_parent argv.length argv _ (Locals.init i0) p hi0 hget rfl]
      have hst : ({ Locals.init i0 with i := (Locals.init i0).i + 1, parentDir := some p } :
          Locals) = { Locals.init i0 with i := i0 + 1, parentDir := some p } := rfl
      rw [hst]
      generalize hst1 : ({ Locals.init i0 with i := i0 + 1, parentDir := some p } : Locals)
        = st1
      have hst1i : st1.i = i0 + 1 := by rw [← hst1]
      have hst1p : st1.parentDir ≠ none := by rw [← hst1]; simp
      have hrun := parseLoop_flags argv (rest.takeWhile isFlagArg) (argv.take i0 ++ [p])
        (rest.dropWhile isFlagArg) st1 (rest.dropWhile isFlagArg).length hst1p
        (by rw [hst1i, List.length_append, htake]; rfl)
        (by
          rw [List.append_assoc, List.append_assoc, hrest]
          simpa using hargv)
        (fun f hf => (List.mem_takeWhile_imp hf))
      rw [hrun]
      have hfi := foldl_applyFlag_i (rest.takeWhile isFlagArg) st1
      have hfp := foldl_applyFlag_parentDir (rest.takeWhile isFlagArg) st1
      cases hdw : rest.dropWhile isFlagArg with
      | nil =>
        have hs : scanResult argv i0 = (rest.takeWhile isFlagArg).foldl applyFlag st1 := by
          simp only [scanResult, hd, hdw, hst1]
        rw [hs]
        rw [hdw] at hfuel
        apply parseLoop_done
        rw [hfi, hst1i]
        simp at hfuel
        omega
      | cons cls tl =>
        have hs : scanResult argv i0 =
            { (rest.takeWhile isFlagArg).foldl applyFlag st1 with
              i := ((rest.takeWhile isFlagArg).foldl applyFlag st1).i + 1,
              className := some cls } := by
          simp only [scanResult, hd, hdw, hst1]
        rw [hs]
        rw [hdw] at hfuel hrest
        have hcls : isFlagArg cls = false := by
          have := List.head_dropWhile_not isFlagArg rest
            (by rw [hdw]; exact List.cons_ne_nil _ _)
          simpa [hdw] using this
        rw [List.length_cons]
        rw [parseLoop_class argv.length argv tl.length _ cls
          (by rw [hfi, hst1i]; simp at hfuel; omega)
          (by
            rw [hfi, hst1i]
            have h2 : argv = (argv.take i0 ++ [p] ++ rest.takeWhile isFlagArg) ++ cls :: tl := by
              rw [List.append_assoc, List.append_assoc]
              simp only [List.singleton_append]
              rw [hrest]
              exact hargv
            have hl : (argv.take i0 ++ [p] ++ rest.takeWhile isFlagArg).length =
                i0 + 1 + (rest.takeWhile isFlagArg).length := by
              simp only [List.length_append, htake, List.length_singleton]
            conv => lhs; rw [h2]
            rw [List.getElem?_append_right (by rw [hl]), hl, Nat.sub_self]
            simp)
          (by rw [hfp]; exact hst1p)
          hcls]
  · have hnil : argv.drop i0 = [] := List.drop_eq_nil_of_le (by omega)
    have hs : scanResult argv i0 = Locals.init i0 := by
      simp only [scanResult, hnil]
    rw [hs]
    exact parseLoop_done _ _ _ _ (by simpa [Locals.init] using hi0)

/-! ## The locals after the loop, in terms of the tokens -/

theorem foldl_applyFlag_zygote (flags : List String) (st : Locals) :
    (flags.foldl applyFlag st).zygote = (st.zygote || decide ("--zygote" ∈ flags)) := by
  induction flags generalizing st with
  | nil => simp
  | cons f fs ih =>
    rw [List.foldl_cons, ih]
    by_cases h : f = "--zygote"
    · subst h; simp [applyFlag]
    · have hz : (applyFlag st f).zygote = st.zygote := by
        unfold applyFlag; dsimp only; rw [if_neg h]; split_ifs <;> rfl
      rw [hz]
      have : ¬ "--zygote" = f := fun h2 => h h2.symm
      simp [List.mem_cons, this]

theorem foldl_applyFlag_startSystemServer (flags : List String) (st : Locals) :
    (flags.foldl applyFlag st).startSystemServer =
      (st.startSystemServer || decide ("--start-system-server" ∈ flags)) := by
  induction flags generalizing st with
  | nil => simp
  | cons f fs ih =>
    rw [List.foldl_cons, ih]
    by_cases h : f = "--start-system-server"
    · subst h; simp [applyFlag]
    · have hz : (applyFlag st f).startSystemServer = st.startSystemServer := by
        unfold applyFlag; dsimp only; split_ifs <;> rfl
      rw [hz]
      have : ¬ "--start-system-server" = f := fun h2 => h h2.symm
      simp [List.mem_cons, this]

theorem foldl_applyFlag_application (flags : List String) (st : Locals) :
    (flags.foldl applyFlag st).application =
      (st.application || decide ("--application" ∈ flags)) := by
  induction flags generalizing st with
  | nil => simp
  | cons f fs ih =>
    rw [List.foldl_cons, ih]
    by_cases h : f = "--application"
    · subst h; simp [applyFlag]
    · have hz : (applyFlag st f).application = st.application := by
        unfold applyFlag; dsimp only; split_ifs <;> rfl
      rw [hz]
      have : ¬ "--application" = f := fun h2 => h h2.symm
      simp [List.mem_cons, this]

theorem foldl_applyFlag_niceName (flags : List String) (st : Locals) :
    (flags.foldl applyFlag st).niceName =
      flags.foldl (fun acc f =>
        if f = "--zygote" then some "zygote"
        else if isNiceNameArg f then some (niceNameSuffix f)
        else acc) st.niceName := by
  induction flags generalizing st with
  | nil => simp
  | cons f fs ih =>
    rw [List.foldl_cons, List.foldl_cons, ih]
    congr 1
    unfold applyFlag
    dsimp only
    by_cases h1 : f = "--zygote"
    · simp [h1]
    by_cases h2 : f = "--start-system-server"
    · subst h2
      have : isNiceNameArg "--start-system-server" = false := by decide
      simp [this]
    by_cases h3 : f = "--application"
    · subst h3
      have : isNiceNameArg "--application" = false := by decide
      simp [this]
    by_cases h4 : isNiceNameArg f = true
    · simp [h1, h2, h3, h4]
    · simp [h1, h2, h3, h4]

/-- The locals after the loop when a token is left at index `i0`. -/
theorem scanResult_fields (argv : List String) (i0 : Nat) (tok : String)
    (h : argv[i0]? = some tok) :
    (scanResult argv i0).parentDir = some tok ∧
    (scanResult argv i0).zygote = decide ("--zygote" ∈ scannedFlags argv i0) ∧
    (scanResult argv i0).startSystemServer =
      decide ("--start-system-server" ∈ scannedFlags argv i0) ∧
    (scanResult argv i0).application = decide ("--application" ∈ scannedFlags argv i0) ∧
    (scanResult argv i0).niceName = niceNameOf (scannedFlags argv i0) ∧
    (scanResult argv i0).className = ((argv.drop (i0 + 1)).dropWhile isFlagArg).head? ∧
    (scanResult argv i0).i = i0 + 1 + (scannedFlags argv i0).length +
      (if ((argv.drop (i0 + 1)).dropWhile isFlagArg) = [] then 0 else 1) := by
  obtain ⟨hlt, hget⟩ := List.getElem?_eq_some.mp h
  have hd : argv.drop i0 = tok :: argv.drop (i0 + 1) := by
    rw [List.drop_eq_getElem_cons hlt, hget]
  unfold scannedFlags niceNameOf
  cases hdw : (argv.drop (i0 + 1)).dropWhile isFlagArg with
  | nil =>
    simp only [scanResult, hd, hdw, foldl_applyFlag_parentDir, foldl_applyFlag_zygote,
      foldl_applyFlag_startSystemServer, foldl_applyFlag_application,
      foldl_applyFlag_niceName, foldl_applyFlag_className, foldl_applyFlag_i, Locals.init]
    simp
  | cons cls tl =>
    simp only [scanResult, hd, hdw, foldl_applyFlag_parentDir, foldl_applyFlag_zygote,
      foldl_applyFlag_startSystemServer, foldl_applyFlag_application,
      foldl_applyFlag_niceName, foldl_applyFlag_className, foldl_applyFlag_i, Locals.init]
    simp

/-- The locals after the loop when no token is left at index `i0`. -/
theorem scanResult_empty (argv : List String) (i0 : Nat) (h : argv.length ≤ i0) :
    scanResult argv i0 = Locals.init i0 := by
  simp only [scanResult, List.drop_eq_nil_of_le h]

/-! ## Reaching the scanning loop -/

theorem mainScan_eq (env : Env) (args : List String) :
    mainScan env args = .ok (scanResult args (env.addVmArguments args.length args)) :=
  parseLoop_eq_scanResult args _

theorem bootstrap_eq (env : Env) (argv0 : String) (args : List String) (p : Proc) :
    bootstrap env argv0 args p =
      afterParse env args.length args (scanResult args (env.addVmArguments args.length args))
        AppRuntime.init (beforeParse env argv0 args p) := by
  simp only [bootstrap, mainScan_eq]

theorem main_eq_bootstrap (env : Env) (g : Globals) (argv0 : String) (args : List String)
    (hv : args ≠ ["--xposedversion"]) (hs : args ≠ ["--xposedtestsafemode"])
    (hf : (compatFixup env (argv0 :: args) (Proc.start env g argv0)).1 = none) :
    main env g argv0 args =
      bootstrap env argv0 args (compatFixup env (argv0 :: args) (Proc.start env g argv0)).2 := by
  have h1 : ¬ (args.length + 1 = 2 ∧ args[0]? = some "--xposedversion") := by
    rintro ⟨hl, hg⟩
    apply hv
    match args, hl, hg with
    | [a], _, hg => simpa using hg
  have h2 : ¬ (args.length + 1 = 2 ∧ args[0]? = some "--xposedtestsafemode") := by
    rintro ⟨hl, hg⟩
    apply hs
    match args, hl, hg with
    | [a], _, hg => simpa using hg
  unfold main
  simp only [h1, h2, if_false]
  generalize compatFixup env (argv0 :: args) (Proc.start env g argv0) = r at hf ⊢
  obtain ⟨o, q⟩ := r
  simp only at hf
  subst hf
  rfl

theorem compatFixup_early (env : Env) (argv : List String) (p : Proc)
    (hp : ∀ e ∈ p.trace, e.early = true) :
    ∀ e ∈ (compatFixup env argv p).2.trace, e.early = true := by
  unfold compatFixup
  simp only [Proc.emit]
  split_ifs <;> simp_all [Event.early] <;> aesop

theorem beforeParse_early (env : Env) (argv0 : String) (args : List String) (p : Proc)
    (hp : ∀ e ∈ p.trace, e.early = true) :
    ∀ e ∈ (beforeParse env argv0 args p).trace, e.early = true := by
  unfold beforeParse initTypePointers
  simp only [Proc.emit]
  split_ifs <;> (try split) <;> simp_all [Event.early] <;> aesop

theorem compatFixup_disableXposedCalled (env : Env) (argv : List String) (p : Proc) :
    (compatFixup env argv p).2.disableXposedCalled = p.disableXposedCalled := by
  unfold compatFixup
  simp only [Proc.emit]
  split_ifs <;> rfl

theorem beforeParse_disableXposedCalled (env : Env) (argv0 : String) (args : List String)
    (p : Proc) : (beforeParse env argv0 args p).disableXposedCalled = p.disableXposedCalled := by
  unfold beforeParse initTypePointers
  simp only [Proc.emit]
  split_ifs <;> (try split) <;> rfl

/-- The process state at the scanning loop, on a run that gets there. -/
theorem loopEntry_facts (env : Env) (g : Globals) (argv0 : String) (args : List String) :
    (∀ e ∈ (beforeParse env argv0 args
        (compatFixup env (argv0 :: args) (Proc.start env g argv0)).2).trace, e.early = true) ∧
    (beforeParse env argv0 args
        (compatFixup env (argv0 :: args) (Proc.start env g argv0)).2).disableXposedCalled
      = false := by
  refine ⟨?_, ?_⟩
  · apply beforeParse_early
    apply compatFixup_early
    intro e he
    simp [Proc.start] at he
  · rw [beforeParse_disableXposedCalled, compatFixup_disableXposedCalled]
    rfl

theorem startCalls_early (t : List Event) (h : ∀ e ∈ t, e.early = true) :
    startCalls t = 0 := by
  unfold startCalls
  rw [List.countP_eq_zero]
  intro e he
  have h1 := h e he
  cases e <;> first | (simp [Event.early] at h1; done) | simp [Event.isRuntimeStart]

theorem startCalls_append (t u : List Event) :
    startCalls (t ++ u) = startCalls t + startCalls u := by
  unfold startCalls
  rw [List.countP_append]

/-! ## The part of `main` after the loop -/

theorem afterParse_outcome (env : Env) (argc : Nat) (argv : List String) (st : Locals)
    (rt : AppRuntime) (p : Proc) :
    (afterParse env argc argv st rt p).outcome =
      if st.zygote = true ∨ st.className ≠ none then .returned 0 else .returned 10 := by
  obtain ⟨i, z, sss, app, pd, nn, cn⟩ := st
  simp only [afterParse, startRuntime]
  cases z <;> cases cn <;> simp

theorem startCalls_emit (p : Proc) (e : Event) :
    startCalls (p.emit e).trace = startCalls p.trace + if e.isRuntimeStart then 1 else 0 := by
  simp only [Proc.emit, startCalls, List.countP_append, List.countP_cons, List.countP_nil]
  simp

theorem safemodeGate_startCalls (env : Env) (z : Bool) (p : Proc) :
    startCalls (safemodeGate env z p).trace = startCalls p.trace := by
  unfold safemodeGate
  split_ifs <;> simp [startCalls_emit, Event.isRuntimeStart]

theorem renameProcess_startCalls (nn : Option String) (p : Proc) :
    startCalls (renameProcess nn p).trace = startCalls p.trace := by
  unfold renameProcess
  split
  · split_ifs
    · rw [startCalls_emit]; rfl
    · rfl
  · rfl

theorem computeKeepLoading_startCalls (env : Env) (cn : Option String) (argc : Nat)
    (argv : List String) (p : Proc) :
    startCalls (computeKeepLoading env cn argc argv p).trace = startCalls p.trace := by
  unfold computeKeepLoading
  dsimp only
  split_ifs <;> simp [startCalls_emit, Event.isRuntimeStart]

theorem startRuntime_startCalls (env : Env) (argc : Nat) (argv : List String) (st : Locals)
    (rt : AppRuntime) (p : Proc) :
    startCalls (startRuntime env argc argv st rt p).proc.trace =
      startCalls p.trace + if st.zygote = true ∨ st.className ≠ none then 1 else 0 := by
  obtain ⟨i, z, sss, app, pd, nn, cn⟩ := st
  unfold startRuntime
  cases z <;> cases cn <;>
    simp [startCalls_emit, Event.isRuntimeStart, app_usage, LOG_ALWAYS_FATAL]

theorem afterParse_startCalls (env : Env) (argc : Nat) (argv : List String) (st : Locals)
    (rt : AppRuntime) (p : Proc) (hp : ∀ e ∈ p.trace, e.early = true) :
    startCalls (afterParse env argc argv st rt p).proc.trace =
      if st.zygote = true ∨ st.className ≠ none then 1 else 0 := by
  have h0 := startCalls_early p.trace hp
  unfold afterParse
  simp only [startRuntime_startCalls, computeKeepLoading_startCalls, startCalls_emit,
    renameProcess_startCalls, safemodeGate_startCalls, h0, Event.isRuntimeStart]
  simp

theorem afterParse_start_mem (env : Env) (argc : Nat) (argv : List String) (st : Locals)
    (rt : AppRuntime) (p : Proc) (hp : ∀ e ∈ p.trace, e.early = true) (cls arg : String) :
    Event.runtimeStart cls arg ∈ (afterParse env argc argv st rt p).proc.trace ↔
      (st.zygote = true ∨ st.className ≠ none) ∧
      cls = (if (afterParse env argc argv st rt p).proc.globals.keepLoadingXposed
              then env.XPOSED_CLASS_DOTS
              else if st.zygote then "com.android.internal.os.ZygoteInit"
              else "com.android.internal.os.RuntimeInit") ∧
      arg = (if st.zygote then (if st.startSystemServer then "start-system-server" else "")
              else if st.application then "application" else "tool") := by
  have hne : Event.runtimeStart cls arg ∉ p.trace := fun h => by
    have := hp _ h
    simp [Event.early] at this
  obtain ⟨i, z, sss, app, pd, nn, cn⟩ := st
  simp only [afterParse, safemodeGate, renameProcess, computeKeepLoading, startRuntime,
    app_usage, LOG_ALWAYS_FATAL, Proc.emit]
  cases z <;> cases cn <;> cases nn <;> simp [hne] <;> split_ifs <;> simp_all

theorem afterParse_disableXposedCalled (env : Env) (argc : Nat) (argv : List String)
    (st : Locals) (rt : AppRuntime) (p : Proc) (hd : p.disableXposedCalled = false) :
    (afterParse env argc argv st rt p).proc.disableXposedCalled =
      (st.zygote && !env.xposedDisableSafemode &&
        env.detectSafemodeTrigger env.xposedSkipSafemodeDelay) := by
  obtain ⟨i, z, sss, app, pd, nn, cn⟩ := st
  simp only [afterParse, safemodeGate, renameProcess, computeKeepLoading, startRuntime,
    app_usage, LOG_ALWAYS_FATAL, Proc.emit]
  cases z <;> cases cn <;> cases nn <;> simp [hd] <;> split_ifs <;> simp_all

theorem afterParse_keepLoadingXposed (env : Env) (argc : Nat) (argv : List String)
    (st : Locals) (rt : AppRuntime) (p : Proc) :
    (afterParse env argc argv st rt p).proc.globals.keepLoadingXposed =
      (!env.isXposedDisabled (afterParse env argc argv st rt p).proc.disableXposedCalled &&
        !env.xposedShouldIgnoreCommand st.className argc argv) := by
  obtain ⟨i, z, sss, app, pd, nn, cn⟩ := st
  simp only [afterParse, safemodeGate, renameProcess, computeKeepLoading, startRuntime,
    app_usage, LOG_ALWAYS_FATAL, Proc.emit]
  cases z <;> cases cn <;> cases nn <;> simp <;> split_ifs <;> simp_all

theorem afterParse_gate (env : Env) (argc : Nat) (argv : List String) (st : Locals)
    (rt : AppRuntime) (p : Proc) (hp : ∀ e ∈ p.trace, e.early = true) :
    (∀ b, Event.detectSafemodeTrigger b ∈ (afterParse env argc argv st rt p).proc.trace ↔
      (st.zygote = true ∧ env.xposedDisableSafemode = false ∧
        b = env.xposedSkipSafemodeDelay)) ∧
    (Event.disableXposed ∈ (afterParse env argc argv st rt p).proc.trace ↔
      (st.zygote = true ∧ env.xposedDisableSafemode = false ∧
        env.detectSafemodeTrigger env.xposedSkipSafemodeDelay = true)) ∧
    (Event.xposedDisableSafemode ∈ (afterParse env argc argv st rt p).proc.trace ↔
      st.zygote = true) := by
  have h1 : ∀ b, Event.detectSafemodeTrigger b ∉ p.trace := fun b h => by
    have := hp _ h
    simp [Event.early] at this
  have h2 : Event.disableXposed ∉ p.trace := fun h => by
    have := hp _ h
    simp [Event.early] at this
  have h3 : Event.xposedDisableSafemode ∉ p.trace := fun h => by
    have := hp _ h
    simp [Event.early] at this
  obtain ⟨i, z, sss, app, pd, nn, cn⟩ := st
  simp only [afterParse, safemodeGate, renameProcess, computeKeepLoading, startRuntime,
    app_usage, LOG_ALWAYS_FATAL, Proc.emit]
  cases z <;> cases cn <;> cases nn <;> simp [h1, h2, h3] <;> split_ifs <;> simp_all

theorem afterParse_runtime (env : Env) (argc : Nat) (argv : List String) (st : Locals)
    (rt : AppRuntime) (p : Proc) :
    (afterParse env argc argv st rt p).runtime =
      some (if st.zygote then { rt with mParentDir := st.parentDir }
        else match st.className with
          | some c => { mParentDir := st.parentDir, mClassName := some c, mClass := rt.mClass,
                        mArgC := (argc : Int) - (st.i : Int), mArgV := some (argv.drop st.i) }
          | none => { rt with mParentDir := st.parentDir }) := by
  obtain ⟨i, z, sss, app, pd, nn, cn⟩ := st
  simp only [afterParse, startRuntime]
  cases z <;> cases cn <;> simp

theorem main_start_reach (env : Env) (g : Globals) (argv0 : String) (args : List String)
    (cls arg : String)
    (h : Event.runtimeStart cls arg ∈ (main env g argv0 args).proc.trace) :
    args ≠ ["--xposedversion"] ∧ args ≠ ["--xposedtestsafemode"] ∧
      (compatFixup env (argv0 :: args) (Proc.start env g argv0)).1 = none := by
  by_cases hv : args = ["--xposedversion"]
  · subst hv
    simp [main, Proc.start, Proc.emit] at h
  by_cases hs : args = ["--xposedtestsafemode"]
  · subst hs
    simp [main, Proc.start, Proc.emit] at h
    split_ifs at h <;> simp at h
  refine ⟨hv, hs, ?_⟩
  have h1 : ¬ (args.length + 1 = 2 ∧ args[0]? = some "--xposedversion") := by
    rintro ⟨hl, hg⟩
    apply hv
    match args, hl, hg with
    | [a], _, hg => simpa using hg
  have h2 : ¬ (args.length + 1 = 2 ∧ args[0]? = some "--xposedtestsafemode") := by
    rintro ⟨hl, hg⟩
    apply hs
    match args, hl, hg with
    | [a], _, hg => simpa using hg
  have hearly := compatFixup_early env (argv0 :: args) (Proc.start env g argv0)
    (by intro e he; simp [Proc.start] at he)
  unfold main at h
  simp only [h1, h2, if_false] at h
  generalize compatFixup env (argv0 :: args) (Proc.start env g argv0) = r at h hearly ⊢
  obtain ⟨o, q⟩ := r
  cases o with
  | none => rfl
  | some o =>
    exfalso
    simp only at h
    have := hearly _ h
    simp [Event.early] at this

theorem main_eq_afterParse (env : Env) (g : Globals) (argv0 : String) (args : List String)
    (hv : args ≠ ["--xposedversion"]) (hs : args ≠ ["--xposedtestsafemode"])
    (hf : (compatFixup env (argv0 :: args) (Proc.start env g argv0)).1 = none) :
    main env g argv0 args =
      afterParse env args.length args (scanResult args (env.addVmArguments args.length args))
        AppRuntime.init (beforeParse env argv0 args
          (compatFixup env (argv0 :: args) (Proc.start env g argv0)).2) := by
  rw [main_eq_bootstrap env g argv0 args hv hs hf, bootstrap_eq]

theorem scannedFlags_split (vm flags rest : List String) (p cls : String)
    (hflags : ∀ f ∈ flags, isFlagArg f = true) (hcls : isFlagArg cls = false) :
    scannedFlags (vm ++ p :: (flags ++ cls :: rest)) vm.length = flags ∧
    ((vm ++ p :: (flags ++ cls :: rest)).drop (vm.length + 1)).dropWhile isFlagArg
      = cls :: rest := by
  have hd : (vm ++ p :: (flags ++ cls :: rest)).drop (vm.length + 1) = flags ++ cls :: rest := by
    rw [List.drop_append_eq_append_drop]
    simp
  unfold scannedFlags
  rw [hd, List.takeWhile_append_of_pos hflags, List.dropWhile_append_of_pos hflags]
  simp [hcls]

theorem Locals.eq_of_fields (a b : Locals) (h1 : a.i = b.i) (h2 : a.zygote = b.zygote)
    (h3 : a.startSystemServer = b.startSystemServer) (h4 : a.application = b.application)
    (h5 : a.parentDir = b.parentDir) (h6 : a.niceName = b.niceName)
    (h7 : a.className = b.className) : a = b := by
  cases a; cases b; simp_all

/-! ## Facts about `strlcpy` -/

theorem strlcpyCopy_length (src : List Char) (n : Nat) :
    (strlcpyCopy src n).length ≤ n := by
  induction n using Nat.strong_induction_on generalizing src with
  | _ n ih =>
    match src, n with
    | _, 0 => simp [strlcpyCopy]
    | _, 1 => simp [strlcpyCopy]
    | [], _ + 2 => simp [strlcpyCopy]
    | c :: cs, m + 2 =>
      rw [strlcpyCopy]
      split_ifs
      · simp
      · have := ih (m + 1) (by omega) cs
        simp only [List.length_cons]
        omega

/-- What `strlcpyCopy` stores with room for at least one byte: a prefix of the source
string, then `NUL`. -/
theorem strlcpyCopy_spec (src : List Char) (n : Nat) :
    ∃ w, strlcpyCopy src (n + 1) = w ++ [NUL] ∧ w <+: cstr src ∧ NUL ∉ w ∧
      w.length = min (cstr src).length n := by
  induction n generalizing src with
  | zero =>
    refine ⟨[], ?_, List.nil_prefix, by simp, by simp⟩
    cases src <;> simp [strlcpyCopy]
  | succ m ih =>
    cases src with
    | nil => exact ⟨[], by simp [strlcpyCopy], List.nil_prefix, by simp, by simp [cstr]⟩
    | cons c cs =>
      by_cases hc : c = NUL
      · exact ⟨[], by simp [strlcpyCopy, hc], List.nil_prefix, by simp, by simp [cstr, hc]⟩
      · obtain ⟨w, hw, hp, hn, hl⟩ := ih cs
        refine ⟨c :: w, ?_, ?_, ?_, ?_⟩
        · simp [strlcpyCopy, hc, hw]
        · simp only [cstr, if_neg hc]
          exact List.prefix_cons_inj c |>.mpr hp
        · simp only [List.mem_cons, not_or]
          exact ⟨fun h => hc h.symm, hn⟩
        · simp only [cstr, if_neg hc, List.length_cons, hl]
          omega

theorem cstr_append_NUL (w rest : List Char) (h : NUL ∉ w) : cstr (w ++ NUL :: rest) = w := by
  induction w with
  | nil => simp [cstr]
  | cons c cs ih =>
    simp only [List.mem_cons, not_or] at h
    have hc : ¬ c = NUL := fun e => h.1 e.symm
    simp [cstr, hc, ih h.2]

theorem cstr_length_le (buf : List Char) : (cstr buf).length ≤ buf.length := by
  induction buf with
  | nil => simp [cstr]
  | cons c cs ih =>
    simp only [cstr]
    split_ifs
    · simp
    · simp only [List.length_cons]; omega


/-! ## Re-execution, callbacks and further facts about the scan -/

theorem diag_guard_iff (args : List String) (x : String) :
    (args.length + 1 = 2 ∧ args[0]? = some x) ↔ args = [x] := by
  constructor
  · rintro ⟨hl, hg⟩
    match args, hl, hg with
    | [a], _, hg => simpa using hg
  · rintro rfl
    simp

theorem compatFixup_replaced (env : Env) (argv : List String) (p : Proc) (o : Outcome)
    (h : (compatFixup env argv p).1 = some o) :
    (env.compatFixupCompiled = true ∧ p.markerEnv = none ∧ env.qemuProperty ≠ "1" ∧
      p.persona &&& ADDR_COMPAT_LAYOUT = 0) ∧
    (compatFixup env argv p).2.markerEnv = some "1" ∧
    (compatFixup env argv p).2.persona = p.persona ||| ADDR_COMPAT_LAYOUT ∧
    Event.execv "/system/bin/app_process" argv ∈ (compatFixup env argv p).2.trace := by
  unfold compatFixup at h ⊢
  simp only [Proc.emit] at h ⊢
  split_ifs at h ⊢ <;> simp_all

theorem compatFixup_marker (env : Env) (argv : List String) (p : Proc)
    (h : p.markerEnv ≠ none) :
    (compatFixup env argv p).1 = none ∧
    ∀ path v, Event.execv path v ∈ (compatFixup env argv p).2.trace →
      Event.execv path v ∈ p.trace := by
  unfold compatFixup
  simp only [Proc.emit]
  split_ifs <;> simp_all

theorem compatFixup_execv (env : Env) (argv : List String) (p : Proc) (path : String)
    (v : List String) (hp : Event.execv path v ∉ p.trace)
    (h : Event.execv path v ∈ (compatFixup env argv p).2.trace) :
    env.compatFixupCompiled = true ∧ p.markerEnv = none ∧ env.qemuProperty ≠ "1" ∧
      p.persona &&& ADDR_COMPAT_LAYOUT = 0 := by
  unfold compatFixup at h
  simp only [Proc.emit] at h
  split_ifs at h <;> simp_all

theorem beforeParse_execv (env : Env) (argv0 : String) (args : List String) (p : Proc)
    (path : String) (v : List String)
    (h : Event.execv path v ∈ (beforeParse env argv0 args p).trace) :
    Event.execv path v ∈ p.trace := by
  unfold beforeParse initTypePointers at h
  simp only [Proc.emit] at h
  split_ifs at h <;> (try split at h) <;> simp_all

theorem afterParse_execv (env : Env) (argc : Nat) (argv : List String) (st : Locals)
    (rt : AppRuntime) (p : Proc) (path : String) (v : List String)
    (h : Event.execv path v ∈ (afterParse env argc argv st rt p).proc.trace) :
    Event.execv path v ∈ p.trace := by
  obtain ⟨i, z, sss, app, pd, nn, cn⟩ := st
  simp only [afterParse, safemodeGate, renameProcess, computeKeepLoading, startRuntime,
    app_usage, LOG_ALWAYS_FATAL, Proc.emit] at h
  revert h
  cases z <;> cases cn <;> cases nn <;> simp <;> split_ifs <;> simp_all

/-- The ways a pass of `main` can end, and the process state it leaves when the compat fixup
ends it. -/
theorem main_fixup_exit (env : Env) (g : Globals) (argv0 : String) (args : List String) :
    (main env g argv0 args).outcome = .imageReplaced →
      (compatFixup env (argv0 :: args) (Proc.start env g argv0)).1 = some .imageReplaced ∧
      (main env g argv0 args).proc =
        (compatFixup env (argv0 :: args) (Proc.start env g argv0)).2 := by
  intro h
  by_cases hv : args = ["--xposedversion"]
  · subst hv; simp [main] at h
  by_cases hs : args = ["--xposedtestsafemode"]
  · subst hs
    simp [main] at h
    split_ifs at h
  cases hf : (compatFixup env (argv0 :: args) (Proc.start env g argv0)).1 with
  | none =>
    rw [main_eq_afterParse env g argv0 args hv hs hf, afterParse_outcome] at h
    split_ifs at h
  | some o =>
    have h1 : ¬ (args.length + 1 = 2 ∧ args[0]? = some "--xposedversion") :=
      fun hh => hv ((diag_guard_iff args _).mp hh)
    have h2 : ¬ (args.length + 1 = 2 ∧ args[0]? = some "--xposedtestsafemode") :=
      fun hh => hs ((diag_guard_iff args _).mp hh)
    unfold main at h ⊢
    simp only [h1, h2, if_false] at h ⊢
    generalize compatFixup env (argv0 :: args) (Proc.start env g argv0) = r at h hf ⊢
    obtain ⟨o2, q⟩ := r
    simp only at hf
    subst hf
    simp only at h ⊢
    refine ⟨by rw [h], ?_⟩
    trivial

theorem main_not_replaced_of_marker (env : Env) (g : Globals) (argv0 : String)
    (args : List String) (h : env.markerEnv ≠ none) :
    (main env g argv0 args).outcome ≠ .imageReplaced := by
  intro hr
  have h1 := (main_fixup_exit env g argv0 args hr).1
  have h2 := (compatFixup_marker env (argv0 :: args) (Proc.start env g argv0) h).1
  rw [h2] at h1
  exact Option.noConfusion h1

theorem stopCalls_eq_zero (t : List Event) (h : Event.stopProcess ∉ t) : stopCalls t = 0 := by
  unfold stopCalls
  rw [List.countP_eq_zero]
  intro e he
  cases e <;> first | (exact absurd he h) | simp [Event.isStopProcess]

theorem stopCalls_append (t u : List Event) :
    stopCalls (t ++ u) = stopCalls t + stopCalls u := by
  unfold stopCalls
  rw [List.countP_append]

theorem afterParse_no_stopProcess (env : Env) (argc : Nat) (argv : List String) (st : Locals)
    (rt : AppRuntime) (p : Proc) (hp : ∀ e ∈ p.trace, e.early = true) :
    Event.stopProcess ∉ (afterParse env argc argv st rt p).proc.trace := by
  have h1 : Event.stopProcess ∉ p.trace := fun h => by
    have := hp _ h
    simp [Event.early] at this
  obtain ⟨i, z, sss, app, pd, nn, cn⟩ := st
  simp only [afterParse, safemodeGate, renameProcess, computeKeepLoading, startRuntime,
    app_usage, LOG_ALWAYS_FATAL, Proc.emit]
  cases z <;> cases cn <;> cases nn <;> simp [h1] <;> split_ifs <;> simp_all

/-- The callback `onVmCreated` never calls `stopProcess` and changes no member of the
runtime object other than `mClass`. -/
theorem onVmCreated_frame (jni : Jni) (s : RuntimeState) :
    ∃ pre, (onVmCreated jni s).proc.trace = s.proc.trace ++ pre ∧
      Event.stopProcess ∉ pre ∧
      (onVmCreated jni s).runtime.mClassName = s.runtime.mClassName ∧
      (onVmCreated jni s).runtime.mArgC = s.runtime.mArgC ∧
      (onVmCreated jni s).runtime.mArgV = s.runtime.mArgV ∧
      (onVmCreated jni s).runtime.mParentDir = s.runtime.mParentDir := by
  obtain ⟨rt, p⟩ := s
  obtain ⟨pd, cn, cl, ac, av⟩ := rt
  cases cn with
  | none => exact ⟨[.xposedOnVmCreated none], by simp [onVmCreated, Proc.emit]⟩
  | some c =>
    simp only [onVmCreated, Proc.emit]
    split_ifs <;>
      exact ⟨_, by simp only [List.append_assoc]; rfl, by simp, by simp⟩

theorem onStarted_eq (s : RuntimeState) :
    (onStarted s).runtime = s.runtime ∧
    (onStarted s).proc.trace = s.proc.trace ++
      [.ALOGV "App process: starting thread pool.\n", .startThreadPool,
       .callMain s.runtime.mClassName s.runtime.mClass s.runtime.mArgC s.runtime.mArgV,
       .stopProcess] := by
  simp [onStarted, Proc.emit]

theorem onExit_eq (code : Int) (s : RuntimeState) :
    (onExit code s).runtime = s.runtime ∧
    (onExit code s).proc.trace = s.proc.trace ++
      (if s.runtime.mClassName = none then [.stopProcess] else []) ++
      [.AndroidRuntime_onExit code] := by
  unfold onExit
  simp only [Proc.emit]
  split_ifs <;> simp

theorem onZygoteInit_eq (s : RuntimeState) :
    (onZygoteInit s).runtime = s.runtime ∧
    (onZygoteInit s).proc.trace = s.proc.trace ++
      (if s.proc.globals.PTR_atrace_set_tracing_enabled then
        [.atrace_set_tracing_enabled true] else []) ++
      [.ALOGV "App process: starting thread pool.\n", .startThreadPool] := by
  unfold onZygoteInit
  simp only [Proc.emit]
  split_ifs <;> simp

theorem drive_supervisor (jni : Jni) (code : Int) (s : RuntimeState)
    (hcn : s.runtime.mClassName = none) :
    ∃ pre, (drive jni (lifecycle true code) s).proc.trace =
        s.proc.trace ++ pre ++ [.stopProcess, .AndroidRuntime_onExit code] ∧
      Event.stopProcess ∉ pre := by
  obtain ⟨pre, hpre, hnp, hc, _, _, _⟩ := onVmCreated_frame jni s
  refine ⟨pre, ?_, hnp⟩
  simp only [drive, lifecycle, if_true, List.foldl_cons, List.foldl_nil, Callback.invoke]
  rw [(onExit_eq code _).2, hc, hcn, hpre]
  simp

theorem drive_application (jni : Jni) (code : Int) (s : RuntimeState)
    (hcn : s.runtime.mClassName ≠ none) :
    ∃ pre c, (drive jni (lifecycle false code) s).proc.trace =
        s.proc.trace ++ pre ++
          [.ALOGV "App process: starting thread pool.\n", .startThreadPool,
           .callMain s.runtime.mClassName c s.runtime.mArgC s.runtime.mArgV, .stopProcess,
           .AndroidRuntime_onExit code] ∧
      Event.stopProcess ∉ pre := by
  obtain ⟨pre, hpre, hnp, hc, hac, hav, _⟩ := onVmCreated_frame jni s
  refine ⟨pre, (onVmCreated jni s).runtime.mClass, ?_, hnp⟩
  simp only [drive, lifecycle, Bool.false_eq_true, if_false, List.foldl_cons, List.foldl_nil,
    Callback.invoke]
  rw [(onExit_eq code _).2, (onStarted_eq _).1, (onStarted_eq _).2, hc, hac, hav, hpre,
    if_neg hcn]
  simp

theorem niceNameOf_append (pre post : List String) :
    niceNameOf (pre ++ post) =
      post.foldl (fun acc f =>
        if f = "--zygote" then some "zygote"
        else if isNiceNameArg f then some (niceNameSuffix f)
        else acc) (niceNameOf pre) := by
  simp only [niceNameOf, List.foldl_append]

theorem niceName_fold_keep (post : List String) (init : Option String)
    (h : ∀ f ∈ post, f ≠ "--zygote" ∧ isNiceNameArg f = false) :
    post.foldl (fun acc f =>
        if f = "--zygote" then some "zygote"
        else if isNiceNameArg f then some (niceNameSuffix f)
        else acc) init = init := by
  induction post generalizing init with
  | nil => rfl
  | cons f fs ih =>
    have hf := h f (List.mem_cons_self _ _)
    rw [List.foldl_cons, if_neg hf.1, hf.2]
    exact ih init (fun g hg => h g (List.mem_cons_of_mem _ hg))

theorem niceName_fold_zygote (post : List String)
    (h : ∀ f ∈ post, isNiceNameArg f = false) :
    post.foldl (fun acc f =>
        if f = "--zygote" then some "zygote"
        else if isNiceNameArg f then some (niceNameSuffix f)
        else acc) (some "zygote") = some "zygote" := by
  induction post with
  | nil => rfl
  | cons f fs ih =>
    have hf := h f (List.mem_cons_self _ _)
    rw [List.foldl_cons, hf]
    by_cases hz : f = "--zygote"
    · rw [if_pos hz]; exact ih (fun g hg => h g (List.mem_cons_of_mem _ hg))
    · rw [if_neg hz]; exact ih (fun g hg => h g (List.mem_cons_of_mem _ hg))

theorem isNiceNameArg_data (arg : String) (h : isNiceNameArg arg = true) :
    arg.data = "--nice-name=".data ++ (niceNameSuffix arg).data := by
  unfold isNiceNameArg at h
  have h1 : arg.data.take 12 = "--nice-name=".data := by simpa using h
  have h2 := List.take_append_drop 12 arg.data
  rw [h1] at h2
  exact h2.symm

/-- What `setArgv0` leaves at `argv[0]` when the old string is not empty: the first
`strlen(argv0) - 1` characters of the new string. -/
theorem setArgv0_cstr (buf newArgv0 : List Char) (h : 1 ≤ strlen buf) :
    cstr (setArgv0 buf newArgv0) = (cstr newArgv0).take (strlen buf - 1) := by
  obtain ⟨m, hm⟩ : ∃ m, strlen buf = m + 1 := ⟨strlen buf - 1, by omega⟩
  obtain ⟨w, hw, hp, hnul, hl⟩ := strlcpyCopy_spec newArgv0 m
  have hs : setArgv0 buf newArgv0 = w ++ NUL :: buf.drop (w.length + 1) := by
    simp [setArgv0, strlcpy, store, hm, strlcpyBytes, hw]
  rw [hs, cstr_append_NUL _ _ hnul, hm, Nat.add_sub_cancel]
  obtain ⟨t, ht⟩ := hp
  rw [← ht, List.take_append_eq_append_take]
  have hwm : w.length ≤ m := by rw [hl]; exact Nat.min_le_right _ _
  rw [List.take_of_length_le hwm]
  by_cases hlt : (cstr newArgv0).length ≤ m
  · have : t = [] := by
      have h2 := congrArg List.length ht
      rw [List.length_append, hl, Nat.min_eq_left hlt] at h2
      exact List.length_eq_zero.mp (by omega)
    simp [this]
  · have : w.length = m := by rw [hl]; exact Nat.min_eq_right (by omega)
    simp [this]

theorem scannedFlags_nonempty_bound (args : List String) (i0 : Nat) (f : String)
    (h : f ∈ scannedFlags args i0) : i0 + 1 < args.length := by
  unfold scannedFlags at h
  have h1 := List.takeWhile_subset isFlagArg h
  by_contra hc
  rw [List.drop_eq_nil_of_le (by omega)] at h1
  simp at h1

/-- The index and class name the loop ends with. -/
theorem scanResult_index (args : List String) (i0 : Nat) (h : i0 ≤ args.length) :
    i0 ≤ (scanResult args i0).i ∧ (scanResult args i0).i ≤ args.length ∧
    (∀ c, (scanResult args i0).className = some c →
      1 ≤ (scanResult args i0).i ∧ args[(scanResult args i0).i - 1]? = some c) := by
  by_cases hlt : i0 < args.length
  · obtain ⟨_, _, _, _, _, f6, f7⟩ := scanResult_fields args i0 _ (List.getElem?_eq_getElem hlt)
    have hsplit := List.takeWhile_append_dropWhile isFlagArg (args.drop (i0 + 1))
    have hlen := congrArg List.length hsplit
    rw [List.length_append, List.length_drop] at hlen
    unfold scannedFlags at f7
    cases hdw : (args.drop (i0 + 1)).dropWhile isFlagArg with
    | nil =>
      rw [hdw] at f6 f7 hlen
      simp only [if_true, List.length_nil] at f7 hlen
      refine ⟨by omega, by omega, ?_⟩
      intro c hc
      rw [f6] at hc
      simp at hc
    | cons cls tl =>
      rw [hdw] at f6 f7 hlen hsplit
      simp only [List.length_cons] at hlen
      have hi : (scanResult args i0).i =
          i0 + 1 + ((args.drop (i0 + 1)).takeWhile isFlagArg).length + 1 := by
        rw [f7]; simp
      refine ⟨by omega, by omega, ?_⟩
      intro c hc
      rw [f6] at hc
      simp only [List.head?_cons, Option.some.injEq] at hc
      subst hc
      refine ⟨by omega, ?_⟩
      rw [hi, Nat.add_sub_cancel]
      have h1 : args[i0 + 1 + ((args.drop (i0 + 1)).takeWhile isFlagArg).length]? =
          (args.drop (i0 + 1))[((args.drop (i0 + 1)).takeWhile isFlagArg).length]? := by
        rw [List.getElem?_drop]
      rw [h1]
      conv => lhs; arg 1; rw [← hsplit]
      rw [List.getElem?_append_right (Nat.le_refl _), Nat.sub_self]
      simp
  · have he : i0 = args.length := by omega
    rw [scanResult_empty args i0 (by omega)]
    simp [Locals.init, he]

/-! ## Properties of the bootstrap -/

/-- C1, as stated, fails for the diagnostic invocation `app_process --xposedversion`: had the
scan run it would have found neither `--zygote` nor a className, yet `main` returns 0, not
10, and although 10 is not returned `runtime.start` is not called. -/
theorem C1_counterexample_xposedversion :
    mainScan quietEnv ["--xposedversion"] =
      .ok { i := 1, zygote := false, startSystemServer := false, application := false,
            parentDir := some "--xposedversion", niceName := none, className := none } ∧
    (main quietEnv zeroGlobals "app_process" ["--xposedversion"]).outcome = .returned 0 ∧
    (main quietEnv zeroGlobals "app_process" ["--xposedversion"]).outcome ≠ .returned 10 ∧
    startCalls (main quietEnv zeroGlobals "app_process" ["--xposedversion"]).proc.trace = 0 :=
  ⟨rfl, by decide, by decide, by decide⟩

/-- C1 (amended): on a run of `main` that is not one of the two diagnostic invocations and
that the compat fixup lets continue, the scan returns locals `st`; `main` returns 10 exactly
when `st.zygote` is false and `st.className` is `NULL`, and then `runtime.start` is never
called; in every other case `runtime.start` is called exactly once and `main` returns 0,
not 10. -/
theorem C1_exit10_iff_no_zygote_no_className (env : Env) (g : Globals) (argv0 : String)
    (args : List String)
    (hv : args ≠ ["--xposedversion"]) (hs : args ≠ ["--xposedtestsafemode"])
    (hf : (compatFixup env (argv0 :: args) (Proc.start env g argv0)).1 = none) :
    ∃ st, mainScan env args = .ok st ∧
      ((main env g argv0 args).outcome = .returned 10 ↔
        (st.zygote = false ∧ st.className = none)) ∧
      ((main env g argv0 args).outcome = .returned 10 →
        startCalls (main env g argv0 args).proc.trace = 0) ∧
      ((main env g argv0 args).outcome ≠ .returned 10 →
        startCalls (main env g argv0 args).proc.trace = 1 ∧
        (main env g argv0 args).outcome = .returned 0) := by
  refine ⟨_, mainScan_eq env args, ?_⟩
  rw [main_eq_bootstrap env g argv0 args hv hs hf, bootstrap_eq, afterParse_outcome,
    afterParse_startCalls _ _ _ _ _ _ (loopEntry_facts env g argv0 args).1]
  generalize scanResult args (env.addVmArguments args.length args) = st
  obtain ⟨i, z, sss, app, pd, nn, cn⟩ := st
  cases z <;> cases cn <;> simp

/-- C1 (amended), at the empty argument vector of Scenario D: `main` returns 10 and never
calls `runtime.start`. -/
theorem C1_exit10_witness :
    ([] : List String) ≠ ["--xposedversion"] ∧ ([] : List String) ≠ ["--xposedtestsafemode"] ∧
    (compatFixup quietEnv ("app_process" :: []) (Proc.start quietEnv zeroGlobals "app_process")).1
      = none ∧
    ∃ st, mainScan quietEnv [] = .ok st ∧
      ((main quietEnv zeroGlobals "app_process" []).outcome = .returned 10 ↔
        (st.zygote = false ∧ st.className = none)) ∧
      ((main quietEnv zeroGlobals "app_process" []).outcome = .returned 10 →
        startCalls (main quietEnv zeroGlobals "app_process" []).proc.trace = 0) ∧
      ((main quietEnv zeroGlobals "app_process" []).outcome ≠ .returned 10 →
        startCalls (main quietEnv zeroGlobals "app_process" []).proc.trace = 1 ∧
        (main quietEnv zeroGlobals "app_process" []).outcome = .returned 0) :=
  ⟨by decide, by decide, rfl,
    C1_exit10_iff_no_zygote_no_className quietEnv zeroGlobals "app_process" []
      (by decide) (by decide) rfl⟩

/-- C2, as stated, fails on two inputs. On `/system/bin --zygote com.example.Tool` the zygote
flag is set and a className is present, yet `main` does not return 10: it calls
`runtime.start` once and returns 0. On `/system/bin ""` the zygote flag is not set and the
className is the empty string, yet `main` again calls `runtime.start` once and returns 0. -/
theorem C2_counterexample_both_or_empty :
    mainScan quietEnv ["/system/bin", "--zygote", "com.example.Tool"] =
      .ok { i := 3, zygote := true, startSystemServer := false, application := false,
            parentDir := some "/system/bin", niceName := some "zygote",
            className := some "com.example.Tool" } ∧
    (main quietEnv zeroGlobals "app_process"
      ["/system/bin", "--zygote", "com.example.Tool"]).outcome = .returned 0 ∧
    startCalls (main quietEnv zeroGlobals "app_process"
      ["/system/bin", "--zygote", "com.example.Tool"]).proc.trace = 1 ∧
    mainScan quietEnv ["/system/bin", ""] =
      .ok { i := 2, zygote := false, startSystemServer := false, application := false,
            parentDir := some "/system/bin", niceName := none, className := some "" } ∧
    (main quietEnv zeroGlobals "app_process" ["/system/bin", ""]).outcome = .returned 0 ∧
    startCalls (main quietEnv zeroGlobals "app_process" ["/system/bin", ""]).proc.trace = 1 :=
  ⟨rfl, by decide, by decide, rfl, by decide, by decide⟩

/-- C2 (amended): on a run of `main` that is not a diagnostic invocation and that the compat
fixup lets continue, the scan returns locals `st`, and `main` returns 10 without calling
`runtime.start` exactly when the zygote flag is unset and no className token was found.
Whenever the zygote flag is set or a className token (possibly empty) was found,
`runtime.start` is called exactly once and `main` returns 0; when the zygote flag is set
the Zygote branch is taken whether or not a className was found: the runtime object keeps
`mClassName`, `mArgC` and `mArgV` at their initial values. -/
theorem C2_rejects_iff_neither (env : Env) (g : Globals) (argv0 : String)
    (args : List String)
    (hv : args ≠ ["--xposedversion"]) (hs : args ≠ ["--xposedtestsafemode"])
    (hf : (compatFixup env (argv0 :: args) (Proc.start env g argv0)).1 = none) :
    ∃ st, mainScan env args = .ok st ∧
      ((st.zygote = false ∧ st.className = none) ↔
        ((main env g argv0 args).outcome = .returned 10 ∧
          startCalls (main env g argv0 args).proc.trace = 0)) ∧
      ((st.zygote = true ∨ st.className ≠ none) →
        ((main env g argv0 args).outcome = .returned 0 ∧
          startCalls (main env g argv0 args).proc.trace = 1)) ∧
      (st.zygote = true →
        (main env g argv0 args).runtime =
          some { AppRuntime.init with mParentDir := st.parentDir }) := by
  refine ⟨_, mainScan_eq env args, ?_⟩
  rw [main_eq_bootstrap env g argv0 args hv hs hf, bootstrap_eq, afterParse_outcome,
    afterParse_startCalls _ _ _ _ _ _ (loopEntry_facts env g argv0 args).1,
    afterParse_runtime]
  generalize scanResult args (env.addVmArguments args.length args) = st
  obtain ⟨i, z, sss, app, pd, nn, cn⟩ := st
  cases z <;> cases cn <;> simp

/-- C2 (amended), at `/system/bin --zygote com.example.Tool`. -/
theorem C2_rejects_iff_neither_witness :
    ["/system/bin", "--zygote", "com.example.Tool"] ≠ ["--xposedversion"] ∧
    ["/system/bin", "--zygote", "com.example.Tool"] ≠ ["--xposedtestsafemode"] ∧
    (compatFixup quietEnv ("app_process" :: ["/system/bin", "--zygote", "com.example.Tool"])
      (Proc.start quietEnv zeroGlobals "app_process")).1 = none ∧
    ∃ st, mainScan quietEnv ["/system/bin", "--zygote", "com.example.Tool"] = .ok st ∧
      ((st.zygote = false ∧ st.className = none) ↔
        ((main quietEnv zeroGlobals "app_process"
            ["/system/bin", "--zygote", "com.example.Tool"]).outcome = .returned 10 ∧
          startCalls (main quietEnv zeroGlobals "app_process"
            ["/system/bin", "--zygote", "com.example.Tool"]).proc.trace = 0)) ∧
      ((st.zygote = true ∨ st.className ≠ none) →
        ((main quietEnv zeroGlobals "app_process"
            ["/system/bin", "--zygote", "com.example.Tool"]).outcome = .returned 0 ∧
          startCalls (main quietEnv zeroGlobals "app_process"
            ["/system/bin", "--zygote", "com.example.Tool"]).proc.trace = 1)) ∧
      (st.zygote = true →
        (main quietEnv zeroGlobals "app_process"
            ["/system/bin", "--zygote", "com.example.Tool"]).runtime =
          some { AppRuntime.init with mParentDir := st.parentDir }) :=
  ⟨by decide, by decide, rfl,
    C2_rejects_iff_neither quietEnv zeroGlobals "app_process"
      ["/system/bin", "--zygote", "com.example.Tool"] (by decide) (by decide) rfl⟩

/-- C3: when the tokens after the VM-argument prefix are `p`, then flags other than
`--zygote`, then a token `cls` that is none of the four flags, then `rest`, the scan ends
with `parentDir = p`, `className = cls` and `i` just past `cls`; its result is determined
by `p`, the flags and `cls` alone, so no token of `rest` is read as a flag; and `main` hands
the runtime `mClassName = cls`, `mArgC = rest.length` and `mArgV = rest`, then calls
`runtime.start` once. -/
theorem C3_className_and_trailing_args (env : Env) (g : Globals) (argv0 : String)
    (args vm flags rest : List String) (p cls : String)
    (hargs : args = vm ++ p :: (flags ++ cls :: rest))
    (hvm : env.addVmArguments args.length args = vm.length)
    (hflags : ∀ f ∈ flags, isFlagArg f = true ∧ f ≠ "--zygote")
    (hcls : isFlagArg cls = false)
    (hf : (compatFixup env (argv0 :: args) (Proc.start env g argv0)).1 = none) :
    mainScan env args =
      .ok { i := vm.length + flags.length + 2, zygote := false,
            startSystemServer := decide ("--start-system-server" ∈ flags),
            application := decide ("--application" ∈ flags),
            parentDir := some p, niceName := niceNameOf flags, className := some cls } ∧
    (main env g argv0 args).runtime =
      some { mParentDir := some p, mClassName := some cls, mClass := none,
             mArgC := (rest.length : Int), mArgV := some rest } ∧
    startCalls (main env g argv0 args).proc.trace = 1 ∧
    (main env g argv0 args).outcome = .returned 0 := by
  have hlen : args.length = vm.length + flags.length + 2 + rest.length := by
    rw [hargs]; simp; omega
  have hv : args ≠ ["--xposedversion"] := fun h => by
    rw [h] at hlen; simp at hlen; omega
  have hs : args ≠ ["--xposedtestsafemode"] := fun h => by
    rw [h] at hlen; simp at hlen; omega
  have hget : args[vm.length]? = some p := by
    rw [hargs, List.getElem?_append_right (Nat.le_refl _)]; simp
  obtain ⟨hsf, hdw⟩ := scannedFlags_split vm flags rest p cls (fun f h => (hflags f h).1) hcls
  rw [← hargs] at hsf hdw
  obtain ⟨f1, f2, f3, f4, f5, f6, f7⟩ := scanResult_fields args vm.length p hget
  rw [hsf] at f2 f3 f4 f5 f7
  rw [hdw] at f6 f7
  have hnz : ("--zygote" ∈ flags) = False := by
    simp only [eq_iff_iff, iff_false]
    exact fun h => (hflags _ h).2 rfl
  have hst : scanResult args vm.length =
      { i := vm.length + flags.length + 2, zygote := false,
        startSystemServer := decide ("--start-system-server" ∈ flags),
        application := decide ("--application" ∈ flags),
        parentDir := some p, niceName := niceNameOf flags, className := some cls } := by
    apply Locals.eq_of_fields
    · rw [f7]; simp; omega
    · rw [f2]; simp [hnz]
    · exact f3
    · exact f4
    · exact f1
    · exact f5
    · rw [f6]; rfl
  have hdrop : args.drop (vm.length + flags.length + 2) = rest := by
    rw [hargs, List.drop_append_eq_append_drop]
    have : vm.length + flags.length + 2 - vm.length = flags.length + 1 + 1 := by omega
    rw [List.drop_of_length_le (by omega), this]
    simp
  refine ⟨by rw [mainScan_eq, hvm, hst], ?_, ?_, ?_⟩
  · rw [main_eq_afterParse env g argv0 args hv hs hf, afterParse_runtime, hvm, hst]
    simp only [hdrop, hlen, AppRuntime.init]
    simp
  · rw [main_eq_afterParse env g argv0 args hv hs hf,
      afterParse_startCalls _ _ _ _ _ _ (loopEntry_facts env g argv0 args).1, hvm, hst]
    simp
  · rw [main_eq_afterParse env g argv0 args hv hs hf, afterParse_outcome, hvm, hst]
    simp

/-- C3 at Scenario B: `/system/bin com.example.Tool --flag x` gives
`parentDir = "/system/bin"`, `className = "com.example.Tool"` and the trailing arguments
`--flag x`. -/
theorem C3_scenario_B_witness :
    ["/system/bin", "com.example.Tool", "--flag", "x"] =
      ([] : List String) ++ "/system/bin" :: ([] ++ "com.example.Tool" :: ["--flag", "x"]) ∧
    quietEnv.addVmArguments ["/system/bin", "com.example.Tool", "--flag", "x"].length
      ["/system/bin", "com.example.Tool", "--flag", "x"] = ([] : List String).length ∧
    (∀ f ∈ ([] : List String), isFlagArg f = true ∧ f ≠ "--zygote") ∧
    isFlagArg "com.example.Tool" = false ∧
    (compatFixup quietEnv ("app_process" :: ["/system/bin", "com.example.Tool", "--flag", "x"])
      (Proc.start quietEnv zeroGlobals "app_process")).1 = none ∧
    mainScan quietEnv ["/system/bin", "com.example.Tool", "--flag", "x"] =
      .ok { i := ([] : List String).length + ([] : List String).length + 2, zygote := false,
            startSystemServer := decide ("--start-system-server" ∈ ([] : List String)),
            application := decide ("--application" ∈ ([] : List String)),
            parentDir := some "/system/bin", niceName := niceNameOf [],
            className := some "com.example.Tool" } ∧
    (main quietEnv zeroGlobals "app_process"
        ["/system/bin", "com.example.Tool", "--flag", "x"]).runtime =
      some { mParentDir := some "/system/bin", mClassName := some "com.example.Tool",
             mClass := none, mArgC := ((["--flag", "x"] : List String).length : Int),
             mArgV := some ["--flag", "x"] } ∧
    startCalls (main quietEnv zeroGlobals "app_process"
        ["/system/bin", "com.example.Tool", "--flag", "x"]).proc.trace = 1 ∧
    (main quietEnv zeroGlobals "app_process"
        ["/system/bin", "com.example.Tool", "--flag", "x"]).outcome = .returned 0 :=
  ⟨rfl, rfl, by simp, by decide, rfl,
    C3_className_and_trailing_args quietEnv zeroGlobals "app_process"
      ["/system/bin", "com.example.Tool", "--flag", "x"] [] [] ["--flag", "x"]
      "/system/bin" "com.example.Tool" rfl rfl (by simp) (by decide) rfl⟩

/-- C4: when a token is left at the index `addVmArguments` returned, the scan returns with
`parentDir` equal to that token, whatever its text, and the zygote, start-system-server and
application flags and `niceName` are those set by the flags scanned after it: the first
token sets none of them. -/
theorem C4_first_token_is_parentDir (env : Env) (args : List String) (tok : String)
    (h : args[env.addVmArguments args.length args]? = some tok) :
    ∃ st, mainScan env args = .ok st ∧ st.parentDir = some tok ∧
      st.zygote =
        decide ("--zygote" ∈ scannedFlags args (env.addVmArguments args.length args)) ∧
      st.startSystemServer = decide ("--start-system-server" ∈
        scannedFlags args (env.addVmArguments args.length args)) ∧
      st.application =
        decide ("--application" ∈ scannedFlags args (env.addVmArguments args.length args)) ∧
      st.niceName = niceNameOf (scannedFlags args (env.addVmArguments args.length args)) := by
  obtain ⟨f1, f2, f3, f4, f5, _, _⟩ := scanResult_fields args _ tok h
  exact ⟨_, mainScan_eq env args, f1, f2, f3, f4, f5⟩

/-- C4 at `--zygote com.example.Tool`: the first token `--zygote` becomes `parentDir` and
the zygote flag and `niceName` stay unset. -/
theorem C4_first_token_witness :
    ["--zygote", "com.example.Tool"][quietEnv.addVmArguments
      ["--zygote", "com.example.Tool"].length ["--zygote", "com.example.Tool"]]?
      = some "--zygote" ∧
    mainScan quietEnv ["--zygote", "com.example.Tool"] =
      .ok { i := 2, zygote := false, startSystemServer := false, application := false,
            parentDir := some "--zygote", niceName := none,
            className := some "com.example.Tool" } ∧
    ∃ st, mainScan quietEnv ["--zygote", "com.example.Tool"] = .ok st ∧
      st.parentDir = some "--zygote" ∧
      st.zygote = decide ("--zygote" ∈ scannedFlags ["--zygote", "com.example.Tool"]
        (quietEnv.addVmArguments ["--zygote", "com.example.Tool"].length
          ["--zygote", "com.example.Tool"])) ∧
      st.startSystemServer = decide ("--start-system-server" ∈
        scannedFlags ["--zygote", "com.example.Tool"]
          (quietEnv.addVmArguments ["--zygote", "com.example.Tool"].length
            ["--zygote", "com.example.Tool"])) ∧
      st.application = decide ("--application" ∈
        scannedFlags ["--zygote", "com.example.Tool"]
          (quietEnv.addVmArguments ["--zygote", "com.example.Tool"].length
            ["--zygote", "com.example.Tool"])) ∧
      st.niceName = niceNameOf (scannedFlags ["--zygote", "com.example.Tool"]
        (quietEnv.addVmArguments ["--zygote", "com.example.Tool"].length
          ["--zygote", "com.example.Tool"])) :=
  ⟨rfl, rfl, C4_first_token_is_parentDir quietEnv ["--zygote", "com.example.Tool"] "--zygote" rfl⟩

/-- C5, as stated, fails: on `--zygote --start-system-server` with nothing consumed as VM
arguments the first token `--zygote` is taken as `parentDir`, so the zygote flag is not
set and `niceName` stays `NULL`; `main` returns 10 and `runtime.start` is not called. -/
theorem C5_counterexample_scenario_A :
    mainScan quietEnv ["--zygote", "--start-system-server"] =
      .ok { i := 2, zygote := false, startSystemServer := true, application := false,
            parentDir := some "--zygote", niceName := none, className := none } ∧
    (main quietEnv zeroGlobals "app_process" ["--zygote", "--start-system-server"]).outcome
      = .returned 10 ∧
    startCalls (main quietEnv zeroGlobals "app_process"
      ["--zygote", "--start-system-server"]).proc.trace = 0 :=
  ⟨rfl, by decide, by decide⟩

/-- C5 (amended): for the vector `p --zygote --start-system-server` with any token `p` in
the parentDir position and nothing consumed as VM arguments, the scan yields the zygote
flag and the start-system-server flag set, no className and `niceName = "zygote"`, and
`main` calls `runtime.start` exactly once, with start argument `"start-system-server"`. -/
theorem C5_zygote_after_parentDir (env : Env) (g : Globals) (argv0 p : String)
    (hvm : env.addVmArguments 3 [p, "--zygote", "--start-system-server"] = 0)
    (hf : (compatFixup env (argv0 :: [p, "--zygote", "--start-system-server"])
      (Proc.start env g argv0)).1 = none) :
    mainScan env [p, "--zygote", "--start-system-server"] =
      .ok { i := 3, zygote := true, startSystemServer := true, application := false,
            parentDir := some p, niceName := some "zygote", className := none } ∧
    Event.runtimeStart
        (if (main env g argv0 [p, "--zygote", "--start-system-server"]).proc.globals.keepLoadingXposed
          then env.XPOSED_CLASS_DOTS else "com.android.internal.os.ZygoteInit")
        "start-system-server"
      ∈ (main env g argv0 [p, "--zygote", "--start-system-server"]).proc.trace ∧
    startCalls (main env g argv0 [p, "--zygote", "--start-system-server"]).proc.trace = 1 ∧
    (main env g argv0 [p, "--zygote", "--start-system-server"]).outcome = .returned 0 := by
  have hscan : mainScan env [p, "--zygote", "--start-system-server"] =
      .ok { i := 3, zygote := true, startSystemServer := true, application := false,
            parentDir := some p, niceName := some "zygote", className := none } := by
    unfold mainScan
    simp only [List.length_cons, List.length_nil, hvm]
    rfl
  have hst := hscan
  rw [mainScan_eq] at hst
  injection hst with hst
  simp only [List.length_cons, List.length_nil] at hst
  have hv : [p, "--zygote", "--start-system-server"] ≠ ["--xposedversion"] := by simp
  have hs : [p, "--zygote", "--start-system-server"] ≠ ["--xposedtestsafemode"] := by simp
  have hentry := (loopEntry_facts env g argv0 [p, "--zygote", "--start-system-server"]).1
  refine ⟨hscan, ?_, ?_, ?_⟩
  · rw [main_eq_afterParse env g argv0 _ hv hs hf]
    rw [afterParse_start_mem _ _ _ _ _ _ hentry]
    simp only [List.length_cons, List.length_nil, hst]
    simp
  · rw [main_eq_afterParse env g argv0 _ hv hs hf, afterParse_startCalls _ _ _ _ _ _ hentry]
    simp only [List.length_cons, List.length_nil, hst]
    simp
  · rw [main_eq_afterParse env g argv0 _ hv hs hf, afterParse_outcome]
    simp only [List.length_cons, List.length_nil, hst]
    simp

/-- C5 (amended) at `/system/bin --zygote --start-system-server`. -/
theorem C5_zygote_after_parentDir_witness :
    quietEnv.addVmArguments 3 ["/system/bin", "--zygote", "--start-system-server"] = 0 ∧
    (compatFixup quietEnv ("app_process" :: ["/system/bin", "--zygote", "--start-system-server"])
      (Proc.start quietEnv zeroGlobals "app_process")).1 = none ∧
    mainScan quietEnv ["/system/bin", "--zygote", "--start-system-server"] =
      .ok { i := 3, zygote := true, startSystemServer := true, application := false,
            parentDir := some "/system/bin", niceName := some "zygote", className := none } ∧
    Event.runtimeStart
        (if (main quietEnv zeroGlobals "app_process"
            ["/system/bin", "--zygote", "--start-system-server"]).proc.globals.keepLoadingXposed
          then quietEnv.XPOSED_CLASS_DOTS else "com.android.internal.os.ZygoteInit")
        "start-system-server"
      ∈ (main quietEnv zeroGlobals "app_process"
          ["/system/bin", "--zygote", "--start-system-server"]).proc.trace ∧
    startCalls (main quietEnv zeroGlobals "app_process"
      ["/system/bin", "--zygote", "--start-system-server"]).proc.trace = 1 ∧
    (main quietEnv zeroGlobals "app_process"
      ["/system/bin", "--zygote", "--start-system-server"]).outcome = .returned 0 :=
  ⟨rfl, rfl, C5_zygote_after_parentDir quietEnv zeroGlobals "app_process" "/system/bin" rfl rfl⟩

/-- C6: whenever `main` calls `runtime.start`, the scan has returned locals `st` and the
start argument is `"start-system-server"` or `""` in Zygote mode, according to whether
`--start-system-server` was scanned, and `"application"` or `"tool"` otherwise, according
to whether `--application` was scanned; the three flags are set exactly when the token is
among the flags scanned after `parentDir`. -/
theorem C6_start_argument (env : Env) (g : Globals) (argv0 : String) (args : List String)
    (cls arg : String)
    (h : Event.runtimeStart cls arg ∈ (main env g argv0 args).proc.trace) :
    ∃ st, mainScan env args = .ok st ∧
      arg = (if st.zygote then (if st.startSystemServer then "start-system-server" else "")
              else if st.application then "application" else "tool") ∧
      st.zygote =
        decide ("--zygote" ∈ scannedFlags args (env.addVmArguments args.length args)) ∧
      st.startSystemServer = decide ("--start-system-server" ∈
        scannedFlags args (env.addVmArguments args.length args)) ∧
      st.application =
        decide ("--application" ∈ scannedFlags args (env.addVmArguments args.length args)) := by
  obtain ⟨hv, hs, hf⟩ := main_start_reach env g argv0 args cls arg h
  rw [main_eq_afterParse env g argv0 args hv hs hf,
    afterParse_start_mem _ _ _ _ _ _ (loopEntry_facts env g argv0 args).1] at h
  obtain ⟨hmode, _, harg⟩ := h
  refine ⟨_, mainScan_eq env args, harg, ?_⟩
  by_cases hlt : env.addVmArguments args.length args < args.length
  · obtain ⟨_, f2, f3, f4, _, _, _⟩ := scanResult_fields args _ _
      (List.getElem?_eq_getElem hlt)
    exact ⟨f2, f3, f4⟩
  · exfalso
    rw [scanResult_empty args _ (by omega)] at hmode
    simp [Locals.init] at hmode

/-- C6 at Scenario C: `/system/bin --application com.example.App` gives
`className = "com.example.App"` and the start argument `"application"`. -/
theorem C6_scenario_C_witness :
    Event.runtimeStart "de.robv.android.xposed.XposedBridge" "application" ∈
      (main quietEnv zeroGlobals "app_process"
        ["/system/bin", "--application", "com.example.App"]).proc.trace ∧
    mainScan quietEnv ["/system/bin", "--application", "com.example.App"] =
      .ok { i := 3, zygote := false, startSystemServer := false, application := true,
            parentDir := some "/system/bin", niceName := none,
            className := some "com.example.App" } ∧
    ∃ st, mainScan quietEnv ["/system/bin", "--application", "com.example.App"] = .ok st ∧
      "application" =
        (if st.zygote then (if st.startSystemServer then "start-system-server" else "")
          else if st.application then "application" else "tool") ∧
      st.zygote = decide ("--zygote" ∈
        scannedFlags ["/system/bin", "--application", "com.example.App"]
          (quietEnv.addVmArguments ["/system/bin", "--application", "com.example.App"].length
            ["/system/bin", "--application", "com.example.App"])) ∧
      st.startSystemServer = decide ("--start-system-server" ∈
        scannedFlags ["/system/bin", "--application", "com.example.App"]
          (quietEnv.addVmArguments ["/system/bin", "--application", "com.example.App"].length
            ["/system/bin", "--application", "com.example.App"])) ∧
      st.application = decide ("--application" ∈
        scannedFlags ["/system/bin", "--application", "com.example.App"]
          (quietEnv.addVmArguments ["/system/bin", "--application", "com.example.App"].length
            ["/system/bin", "--application", "com.example.App"])) :=
  ⟨by decide, rfl,
    C6_start_argument quietEnv zeroGlobals "app_process"
      ["/system/bin", "--application", "com.example.App"]
      "de.robv.android.xposed.XposedBridge" "application" (by decide)⟩

/-- C7: assume `isXposedDisabled()` answers true once `disableXposed()` has been called,
and that the extension class differs from the two platform entry classes. If `main` calls
`runtime.start` with the extension class, then `isXposedDisabled()` answered false,
`xposedShouldIgnoreCommand(className, argc, argv)` answered false, and either the zygote
flag is unset or the safemode gate did not fire (override set or trigger false); in
particular `disableXposed()` was not called. -/
theorem C7_injected_entry_needs_every_gate_open (env : Env) (g : Globals) (argv0 : String)
    (args : List String) (arg : String)
    (hdis : env.isXposedDisabled true = true)
    (hz : env.XPOSED_CLASS_DOTS ≠ "com.android.internal.os.ZygoteInit")
    (hr : env.XPOSED_CLASS_DOTS ≠ "com.android.internal.os.RuntimeInit")
    (h : Event.runtimeStart env.XPOSED_CLASS_DOTS arg ∈ (main env g argv0 args).proc.trace) :
    ∃ st, mainScan env args = .ok st ∧
      env.isXposedDisabled (main env g argv0 args).proc.disableXposedCalled = false ∧
      env.xposedShouldIgnoreCommand st.className args.length args = false ∧
      (st.zygote = false ∨ ¬ (env.xposedDisableSafemode = false ∧
        env.detectSafemodeTrigger env.xposedSkipSafemodeDelay = true)) ∧
      Event.disableXposed ∉ (main env g argv0 args).proc.trace := by
  obtain ⟨hv, hs, hf⟩ := main_start_reach env g argv0 args _ arg h
  obtain ⟨hearly, hfresh⟩ := loopEntry_facts env g argv0 args
  rw [main_eq_afterParse env g argv0 args hv hs hf] at h ⊢
  rw [afterParse_start_mem _ _ _ _ _ _ hearly] at h
  obtain ⟨_, hcls, _⟩ := h
  have hkeep : (afterParse env args.length args
      (scanResult args (env.addVmArguments args.length args)) AppRuntime.init
      (beforeParse env argv0 args
        (compatFixup env (argv0 :: args) (Proc.start env g argv0)).2)).proc.globals.keepLoadingXposed
      = true := by
    by_contra hk
    simp only [Bool.not_eq_true] at hk
    rw [hk] at hcls
    simp only [Bool.false_eq_true, if_false] at hcls
    split_ifs at hcls
    · exact hz hcls
    · exact hr hcls
  rw [afterParse_keepLoadingXposed] at hkeep
  simp only [Bool.and_eq_true, Bool.not_eq_true'] at hkeep
  obtain ⟨hk1, hk2⟩ := hkeep
  have hcalled := afterParse_disableXposedCalled env args.length args
    (scanResult args (env.addVmArguments args.length args)) AppRuntime.init _ hfresh
  have hnot : (afterParse env args.length args
      (scanResult args (env.addVmArguments args.length args)) AppRuntime.init
      (beforeParse env argv0 args
        (compatFixup env (argv0 :: args) (Proc.start env g argv0)).2)).proc.disableXposedCalled
      = false := by
    by_contra hc
    simp only [Bool.not_eq_false] at hc
    rw [hc, hdis] at hk1
    exact Bool.noConfusion hk1
  rw [hnot] at hcalled
  refine ⟨_, mainScan_eq env args, hk1, hk2, ?_, ?_⟩
  · by_cases hzy : (scanResult args (env.addVmArguments args.length args)).zygote = false
    · exact Or.inl hzy
    · right
      rintro ⟨ho, ht⟩
      simp only [Bool.not_eq_false] at hzy
      rw [hzy, ho, ht] at hcalled
      exact Bool.noConfusion hcalled
  · rw [(afterParse_gate env args.length args _ AppRuntime.init _ hearly).2.1]
    rintro ⟨hzy, ho, ht⟩
    rw [hzy, ho, ht] at hcalled
    exact Bool.noConfusion hcalled

/-- C7 at `/system/bin --zygote` with no gate firing: the extension class is started. -/
theorem C7_injected_entry_witness :
    quietEnv.isXposedDisabled true = true ∧
    quietEnv.XPOSED_CLASS_DOTS ≠ "com.android.internal.os.ZygoteInit" ∧
    quietEnv.XPOSED_CLASS_DOTS ≠ "com.android.internal.os.RuntimeInit" ∧
    Event.runtimeStart quietEnv.XPOSED_CLASS_DOTS "" ∈
      (main quietEnv zeroGlobals "app_process" ["/system/bin", "--zygote"]).proc.trace ∧
    ∃ st, mainScan quietEnv ["/system/bin", "--zygote"] = .ok st ∧
      quietEnv.isXposedDisabled (main quietEnv zeroGlobals "app_process"
        ["/system/bin", "--zygote"]).proc.disableXposedCalled = false ∧
      quietEnv.xposedShouldIgnoreCommand st.className ["/system/bin", "--zygote"].length
        ["/system/bin", "--zygote"] = false ∧
      (st.zygote = false ∨ ¬ (quietEnv.xposedDisableSafemode = false ∧
        quietEnv.detectSafemodeTrigger quietEnv.xposedSkipSafemodeDelay = true)) ∧
      Event.disableXposed ∉
        (main quietEnv zeroGlobals "app_process" ["/system/bin", "--zygote"]).proc.trace :=
  ⟨rfl, by decide, by decide, by decide,
    C7_injected_entry_needs_every_gate_open quietEnv zeroGlobals "app_process"
      ["/system/bin", "--zygote"] "" rfl (by decide) (by decide) (by decide)⟩

/-- C8: whenever `main` calls `runtime.start`, the class it passes is `entryClass` of the
zygote flag and the value assigned to `keepLoadingXposed`: the extension class when
`keepLoadingXposed` is true, otherwise `ZygoteInit` with the zygote flag set and
`RuntimeInit` without it. No other local of `main` enters. -/
theorem C8_entry_class (env : Env) (g : Globals) (argv0 : String) (args : List String)
    (cls arg : String)
    (h : Event.runtimeStart cls arg ∈ (main env g argv0 args).proc.trace) :
    ∃ st, mainScan env args = .ok st ∧
      cls = entryClass env.XPOSED_CLASS_DOTS st.zygote
        (main env g argv0 args).proc.globals.keepLoadingXposed := by
  obtain ⟨hv, hs, hf⟩ := main_start_reach env g argv0 args cls arg h
  rw [main_eq_afterParse env g argv0 args hv hs hf] at h ⊢
  rw [afterParse_start_mem _ _ _ _ _ _ (loopEntry_facts env g argv0 args).1] at h
  exact ⟨_, mainScan_eq env args, h.2.1⟩

/-- C8 at `/system/bin com.example.Tool` with no gate firing: the extension class is
started. -/
theorem C8_entry_class_witness :
    Event.runtimeStart "de.robv.android.xposed.XposedBridge" "tool" ∈
      (main quietEnv zeroGlobals "app_process" ["/system/bin", "com.example.Tool"]).proc.trace ∧
    ∃ st, mainScan quietEnv ["/system/bin", "com.example.Tool"] = .ok st ∧
      "de.robv.android.xposed.XposedBridge" = entryClass quietEnv.XPOSED_CLASS_DOTS st.zygote
        (main quietEnv zeroGlobals "app_process"
          ["/system/bin", "com.example.Tool"]).proc.globals.keepLoadingXposed :=
  ⟨by decide,
    C8_entry_class quietEnv zeroGlobals "app_process" ["/system/bin", "com.example.Tool"]
      "de.robv.android.xposed.XposedBridge" "tool" (by decide)⟩

/-- C9: on a run of `main` that is not a diagnostic invocation and that the compat fixup
lets continue, `detectSafemodeTrigger` is called exactly when the zygote flag is set and
`xposedDisableSafemode()` answered false; `disableXposed()` is called exactly when, in
addition, the trigger answered true; and without the zygote flag neither
`xposedDisableSafemode` nor `detectSafemodeTrigger` is called. -/
theorem C9_safemode_gate (env : Env) (g : Globals) (argv0 : String) (args : List String)
    (hv : args ≠ ["--xposedversion"]) (hs : args ≠ ["--xposedtestsafemode"])
    (hf : (compatFixup env (argv0 :: args) (Proc.start env g argv0)).1 = none) :
    ∃ st, mainScan env args = .ok st ∧
      ((∃ b, Event.detectSafemodeTrigger b ∈ (main env g argv0 args).proc.trace) ↔
        (st.zygote = true ∧ env.xposedDisableSafemode = false)) ∧
      (Event.disableXposed ∈ (main env g argv0 args).proc.trace ↔
        (st.zygote = true ∧ env.xposedDisableSafemode = false ∧
          env.detectSafemodeTrigger env.xposedSkipSafemodeDelay = true)) ∧
      (st.zygote = false →
        Event.xposedDisableSafemode ∉ (main env g argv0 args).proc.trace ∧
        ∀ b, Event.detectSafemodeTrigger b ∉ (main env g argv0 args).proc.trace) := by
  obtain ⟨h1, h2, h3⟩ := afterParse_gate env args.length args
    (scanResult args (env.addVmArguments args.length args)) AppRuntime.init _
    (loopEntry_facts env g argv0 args).1
  rw [main_eq_afterParse env g argv0 args hv hs hf]
  refine ⟨_, mainScan_eq env args, ?_, h2, ?_⟩
  · constructor
    · rintro ⟨b, hb⟩
      exact ⟨((h1 b).mp hb).1, ((h1 b).mp hb).2.1⟩
    · rintro ⟨hz, ho⟩
      exact ⟨_, (h1 _).mpr ⟨hz, ho, rfl⟩⟩
  · intro hz
    refine ⟨?_, ?_⟩
    · rw [h3, hz]; simp
    · intro b hb
      have := ((h1 b).mp hb).1
      rw [hz] at this
      exact Bool.noConfusion this

/-- C9 at `/system/bin --zygote` with the trigger firing: `disableXposed()` is called. -/
theorem C9_safemode_gate_witness :
    ["/system/bin", "--zygote"] ≠ ["--xposedversion"] ∧
    ["/system/bin", "--zygote"] ≠ ["--xposedtestsafemode"] ∧
    (compatFixup triggeredEnv ("app_process" :: ["/system/bin", "--zygote"])
      (Proc.start triggeredEnv zeroGlobals "app_process")).1 = none ∧
    Event.disableXposed ∈
      (main triggeredEnv zeroGlobals "app_process" ["/system/bin", "--zygote"]).proc.trace ∧
    ∃ st, mainScan triggeredEnv ["/system/bin", "--zygote"] = .ok st ∧
      ((∃ b, Event.detectSafemodeTrigger b ∈
          (main triggeredEnv zeroGlobals "app_process" ["/system/bin", "--zygote"]).proc.trace) ↔
        (st.zygote = true ∧ triggeredEnv.xposedDisableSafemode = false)) ∧
      (Event.disableXposed ∈
          (main triggeredEnv zeroGlobals "app_process" ["/system/bin", "--zygote"]).proc.trace ↔
        (st.zygote = true ∧ triggeredEnv.xposedDisableSafemode = false ∧
          triggeredEnv.detectSafemodeTrigger triggeredEnv.xposedSkipSafemodeDelay = true)) ∧
      (st.zygote = false →
        Event.xposedDisableSafemode ∉
          (main triggeredEnv zeroGlobals "app_process" ["/system/bin", "--zygote"]).proc.trace ∧
        ∀ b, Event.detectSafemodeTrigger b ∉
          (main triggeredEnv zeroGlobals "app_process" ["/system/bin", "--zygote"]).proc.trace) :=
  ⟨by decide, by decide, rfl, by decide,
    C9_safemode_gate triggeredEnv zeroGlobals "app_process" ["/system/bin", "--zygote"]
      (by decide) (by decide) rfl⟩

/-- C10: for every memory content `buf` at `argv[0]`, holding a string of length
`n = strlen buf`, and every `newArgv0`: `setArgv0` stores at most `n` bytes, all at the
start of the buffer, so the buffer keeps its size and every byte from offset `n` on keeps
its value; the string at `argv[0]` afterwards has length at most `n` and is a prefix of
the string `newArgv0`; and when `n = 0` nothing is stored. -/
theorem C10_setArgv0_no_overflow (buf newArgv0 : List Char) :
    (strlcpyBytes newArgv0 (strlen buf)).length ≤ strlen buf ∧
    (setArgv0 buf newArgv0).length = buf.length ∧
    (setArgv0 buf newArgv0).drop (strlen buf) = buf.drop (strlen buf) ∧
    (cstr (setArgv0 buf newArgv0)).length ≤ strlen buf ∧
    cstr (setArgv0 buf newArgv0) <+: cstr newArgv0 ∧
    (strlen buf = 0 → strlcpyBytes newArgv0 (strlen buf) = [] ∧ setArgv0 buf newArgv0 = buf) := by
  have hle : strlen buf ≤ buf.length := cstr_length_le buf
  have hb : (strlcpyBytes newArgv0 (strlen buf)).length ≤ strlen buf := by
    unfold strlcpyBytes
    split_ifs
    · simp
    · exact strlcpyCopy_length _ _
  cases hn : strlen buf with
  | zero =>
    have hs : setArgv0 buf newArgv0 = buf := by
      simp [setArgv0, strlcpy, strlcpyBytes, store, hn]
    have hc : cstr buf = [] := List.length_eq_zero.mp hn
    rw [hn] at hb
    refine ⟨hb, by rw [hs], by rw [hs], by rw [hs, hc]; simp, by rw [hs, hc]; exact List.nil_prefix,
      fun _ => ⟨by simp [strlcpyBytes], hs⟩⟩
  | succ m =>
    obtain ⟨w, hw, hp, hnul, hl⟩ := strlcpyCopy_spec newArgv0 m
    have hbytes : strlcpyBytes newArgv0 (m + 1) = w ++ [NUL] := by
      simp [strlcpyBytes, hw]
    have hs : setArgv0 buf newArgv0 = w ++ NUL :: buf.drop (w.length + 1) := by
      simp [setArgv0, strlcpy, store, hn, hbytes]
    have hwl : w.length ≤ m := by rw [hl]; exact Nat.min_le_right _ _
    rw [hn] at hb hle
    refine ⟨hb, ?_, ?_, ?_, ?_, fun h => by omega⟩
    · rw [hs]; simp; omega
    · rw [hs]
      have : w ++ NUL :: buf.drop (w.length + 1) = (w ++ [NUL]) ++ buf.drop (w.length + 1) := by
        simp
      rw [this, List.drop_append_eq_append_drop, List.drop_of_length_le (by simp; omega)]
      simp only [List.nil_append, List.drop_drop, List.length_append, List.length_singleton]
      congr 1
      omega
    · rw [hs, cstr_append_NUL _ _ hnul]; omega
    · rw [hs, cstr_append_NUL _ _ hnul]; exact hp

/-- C11: a pass of `main` whose compat fixup replaces the process image had the fixup
compiled in, the marker variable absent, `is_qemu` false and the compat bit unset; the
pass that the new image then runs finds the marker set, skips the fixup branch and
replaces nothing; so a run of the process, given room for two passes, ends after at most
one image replacement. An `execv` is only attempted under the same four conditions. -/
theorem C11_fixup_replaces_at_most_once (env : Env) (g : Globals) (argv0 : String)
    (args : List String) :
    ((main env g argv0 args).outcome = .imageReplaced →
      (env.compatFixupCompiled = true ∧ env.markerEnv = none ∧ env.qemuProperty ≠ "1" ∧
        env.persona &&& ADDR_COMPAT_LAYOUT = 0) ∧
      (env.afterExec (main env g argv0 args).proc).markerEnv = some "1" ∧
      (compatFixup (env.afterExec (main env g argv0 args).proc) (argv0 :: args)
        (Proc.start (env.afterExec (main env g argv0 args).proc) g argv0)).1 = none ∧
      (main (env.afterExec (main env g argv0 args).proc) g argv0 args).outcome
        ≠ .imageReplaced) ∧
    (∀ path v, Event.execv path v ∈ (main env g argv0 args).proc.trace →
      env.compatFixupCompiled = true ∧ env.markerEnv = none ∧ env.qemuProperty ≠ "1" ∧
        env.persona &&& ADDR_COMPAT_LAYOUT = 0) ∧
    (∃ n r, run 2 env g argv0 args = some (n, r) ∧ n ≤ 1 ∧ r.outcome ≠ .imageReplaced) := by
  have hstep : (main env g argv0 args).outcome = .imageReplaced →
      (env.compatFixupCompiled = true ∧ env.markerEnv = none ∧ env.qemuProperty ≠ "1" ∧
        env.persona &&& ADDR_COMPAT_LAYOUT = 0) ∧
      (env.afterExec (main env g argv0 args).proc).markerEnv = some "1" := by
    intro h
    obtain ⟨hf, hp⟩ := main_fixup_exit env g argv0 args h
    obtain ⟨hc, hm, _, _⟩ := compatFixup_replaced env _ _ _ hf
    refine ⟨hc, ?_⟩
    rw [hp]
    exact hm
  refine ⟨?_, ?_, ?_⟩
  · intro h
    obtain ⟨hc, hm⟩ := hstep h
    have hne : (env.afterExec (main env g argv0 args).proc).markerEnv ≠ none := by
      rw [hm]; simp
    exact ⟨hc, hm,
      (compatFixup_marker (env.afterExec (main env g argv0 args).proc) (argv0 :: args)
        (Proc.start (env.afterExec (main env g argv0 args).proc) g argv0) hne).1,
      main_not_replaced_of_marker _ g argv0 args hne⟩
  · intro path v h
    by_cases hv : args = ["--xposedversion"]
    · subst hv; simp [main, Proc.start, Proc.emit] at h
    by_cases hs : args = ["--xposedtestsafemode"]
    · subst hs
      simp [main, Proc.start, Proc.emit] at h
      split_ifs at h <;> simp at h
    have hstart : Event.execv path v ∉ (Proc.start env g argv0).trace := by
      simp [Proc.start]
    cases hf : (compatFixup env (argv0 :: args) (Proc.start env g argv0)).1 with
    | none =>
      rw [main_eq_afterParse env g argv0 args hv hs hf] at h
      exact compatFixup_execv env _ _ path v hstart
        (beforeParse_execv _ _ _ _ _ _ (afterParse_execv _ _ _ _ _ _ _ _ h))
    | some o =>
      exact (compatFixup_replaced env _ _ o hf).1
  · cases ho : (main env g argv0 args).outcome with
    | imageReplaced =>
      have hne : (env.afterExec (main env g argv0 args).proc).markerEnv ≠ none := by
        rw [(hstep ho).2]; simp
      have h2 := main_not_replaced_of_marker _ g argv0 args hne
      refine ⟨1, main (env.afterExec (main env g argv0 args).proc) g argv0 args, ?_,
        Nat.le_refl _, h2⟩
      cases ho2 : (main (env.afterExec (main env g argv0 args).proc) g argv0 args).outcome with
      | imageReplaced => exact absurd ho2 h2
      | returned c => simp only [run, ho, ho2]
      | undefined e => simp only [run, ho, ho2]
    | returned c =>
      exact ⟨0, main env g argv0 args, by simp only [run, ho], by omega, by rw [ho]; simp⟩
    | undefined e =>
      exact ⟨0, main env g argv0 args, by simp only [run, ho], by omega, by rw [ho]; simp⟩

/-- C11 on a build with the fixup compiled in: the first pass replaces the image, the pass
of the new image does not, and the run ends after one replacement. -/
theorem C11_fixup_witness :
    (main armEnv zeroGlobals "app_process" ["/system/bin", "--zygote"]).outcome
      = .imageReplaced ∧
    (main (armEnv.afterExec (main armEnv zeroGlobals "app_process"
        ["/system/bin", "--zygote"]).proc) zeroGlobals "app_process"
        ["/system/bin", "--zygote"]).outcome = .returned 0 ∧
    ((armEnv.compatFixupCompiled = true ∧ armEnv.markerEnv = none ∧
        armEnv.qemuProperty ≠ "1" ∧ armEnv.persona &&& ADDR_COMPAT_LAYOUT = 0) ∧
      (armEnv.afterExec (main armEnv zeroGlobals "app_process"
        ["/system/bin", "--zygote"]).proc).markerEnv = some "1" ∧
      (compatFixup (armEnv.afterExec (main armEnv zeroGlobals "app_process"
          ["/system/bin", "--zygote"]).proc) ("app_process" :: ["/system/bin", "--zygote"])
        (Proc.start (armEnv.afterExec (main armEnv zeroGlobals "app_process"
          ["/system/bin", "--zygote"]).proc) zeroGlobals "app_process")).1 = none ∧
      (main (armEnv.afterExec (main armEnv zeroGlobals "app_process"
        ["/system/bin", "--zygote"]).proc) zeroGlobals "app_process"
        ["/system/bin", "--zygote"]).outcome ≠ .imageReplaced) :=
  ⟨by decide, by decide,
    (C11_fixup_replaces_at_most_once armEnv zeroGlobals "app_process"
      ["/system/bin", "--zygote"]).1 (by decide)⟩

/-- C12: when `main` calls `runtime.start`, it leaves a runtime object `rt` whose
`mClassName` is `NULL` exactly in Zygote mode. Driving the callbacks in the order of the
mode from that state appends, after the calls of `onVmCreated` (none of which is
`stopProcess`): for an application or tool the calls of `onStarted`, namely
`startThreadPool`, `callMain`, `stopProcess` in that order, then `AndroidRuntime::onExit`
alone; for the Zygote supervisor `stopProcess` followed by `AndroidRuntime::onExit`. In
both modes `stopProcess` is called exactly once in the whole trace. `onZygoteInit` calls
`startThreadPool` and never `stopProcess`. -/
theorem C12_stopProcess_exactly_once (env : Env) (g : Globals) (argv0 : String)
    (args : List String) (jni : Jni) (code : Int) (cls arg : String)
    (h : Event.runtimeStart cls arg ∈ (main env g argv0 args).proc.trace) :
    ∃ st rt, mainScan env args = .ok st ∧ (main env g argv0 args).runtime = some rt ∧
      (rt.mClassName = none ↔ st.zygote = true) ∧
      (st.zygote = false → ∃ pre c,
        (drive jni (lifecycle false code) ⟨rt, (main env g argv0 args).proc⟩).proc.trace =
          (main env g argv0 args).proc.trace ++ pre ++
            [.ALOGV "App process: starting thread pool.\n", .startThreadPool,
             .callMain rt.mClassName c rt.mArgC rt.mArgV, .stopProcess,
             .AndroidRuntime_onExit code] ∧
        Event.stopProcess ∉ pre) ∧
      (st.zygote = true → ∃ pre,
        (drive jni (lifecycle true code) ⟨rt, (main env g argv0 args).proc⟩).proc.trace =
          (main env g argv0 args).proc.trace ++ pre ++
            [.stopProcess, .AndroidRuntime_onExit code] ∧
        Event.stopProcess ∉ pre) ∧
      stopCalls (drive jni (lifecycle st.zygote code)
        ⟨rt, (main env g argv0 args).proc⟩).proc.trace = 1 ∧
      (∀ s, stopCalls (onZygoteInit s).proc.trace = stopCalls s.proc.trace ∧
        Event.startThreadPool ∈ (onZygoteInit s).proc.trace) := by
  obtain ⟨hv, hs, hf⟩ := main_start_reach env g argv0 args cls arg h
  obtain ⟨hearly, _⟩ := loopEntry_facts env g argv0 args
  have hmain := main_eq_afterParse env g argv0 args hv hs hf
  have hmode := ((afterParse_start_mem _ _ _ _ _ _ hearly cls arg).mp (hmain ▸ h)).1
  have hrt := afterParse_runtime env args.length args
    (scanResult args (env.addVmArguments args.length args)) AppRuntime.init
    (beforeParse env argv0 args (compatFixup env (argv0 :: args) (Proc.start env g argv0)).2)
  have hns := afterParse_no_stopProcess env args.length args
    (scanResult args (env.addVmArguments args.length args)) AppRuntime.init _ hearly
  rw [← hmain] at hrt hns
  have h0 := stopCalls_eq_zero _ hns
  have hz : ∀ s, stopCalls (onZygoteInit s).proc.trace = stopCalls s.proc.trace ∧
      Event.startThreadPool ∈ (onZygoteInit s).proc.trace := by
    intro s
    rw [(onZygoteInit_eq s).2]
    refine ⟨?_, by simp⟩
    simp only [stopCalls_append]
    split_ifs <;> simp [stopCalls, Event.isStopProcess]
  have hscan := mainScan_eq env args
  rcases hst : scanResult args (env.addVmArguments args.length args) with
    ⟨i, z, sss, app, pd, nn, cn⟩
  rw [hst] at hscan hmode hrt
  cases z with
  | true =>
    simp only [if_true] at hrt
    obtain ⟨pre, htr, hnp⟩ := drive_supervisor jni code
      ⟨{ AppRuntime.init with mParentDir := pd }, (main env g argv0 args).proc⟩ rfl
    refine ⟨_, _, hscan, hrt, by simp [AppRuntime.init], by simp, fun _ => ⟨pre, htr, hnp⟩,
      ?_, hz⟩
    simp only [if_true] at htr ⊢
    rw [htr, stopCalls_append, stopCalls_append, h0, stopCalls_eq_zero _ hnp]
    simp [stopCalls, Event.isStopProcess]
  | false =>
    cases cn with
    | none => simp at hmode
    | some c =>
      simp only [Bool.false_eq_true, if_false] at hrt
      obtain ⟨pre, cl, htr, hnp⟩ := drive_application jni code
        ⟨{ mParentDir := pd, mClassName := some c, mClass := AppRuntime.init.mClass,
           mArgC := (args.length : Int) - (i : Int), mArgV := some (args.drop i) },
          (main env g argv0 args).proc⟩ (by simp)
      refine ⟨_, _, hscan, hrt, by simp, fun _ => ⟨pre, cl, htr, hnp⟩, by simp, ?_, hz⟩
      simp only [Bool.false_eq_true, if_false] at htr ⊢
      rw [htr, stopCalls_append, stopCalls_append, h0, stopCalls_eq_zero _ hnp]
      simp [stopCalls, Event.isStopProcess]

/-- C12 at `/system/bin com.example.Tool`, every class found, exit code 0. -/
theorem C12_stopProcess_witness :
    Event.runtimeStart "de.robv.android.xposed.XposedBridge" "tool" ∈
      (main quietEnv zeroGlobals "app_process" ["/system/bin", "com.example.Tool"]).proc.trace ∧
    ∃ st rt, mainScan quietEnv ["/system/bin", "com.example.Tool"] = .ok st ∧
      (main quietEnv zeroGlobals "app_process" ["/system/bin", "com.example.Tool"]).runtime
        = some rt ∧
      (rt.mClassName = none ↔ st.zygote = true) ∧
      (st.zygote = false → ∃ pre c,
        (drive quietJni (lifecycle false 0) ⟨rt, (main quietEnv zeroGlobals "app_process"
            ["/system/bin", "com.example.Tool"]).proc⟩).proc.trace =
          (main quietEnv zeroGlobals "app_process"
            ["/system/bin", "com.example.Tool"]).proc.trace ++ pre ++
            [.ALOGV "App process: starting thread pool.\n", .startThreadPool,
             .callMain rt.mClassName c rt.mArgC rt.mArgV, .stopProcess,
             .AndroidRuntime_onExit 0] ∧
        Event.stopProcess ∉ pre) ∧
      (st.zygote = true → ∃ pre,
        (drive quietJni (lifecycle true 0) ⟨rt, (main quietEnv zeroGlobals "app_process"
            ["/system/bin", "com.example.Tool"]).proc⟩).proc.trace =
          (main quietEnv zeroGlobals "app_process"
            ["/system/bin", "com.example.Tool"]).proc.trace ++ pre ++
            [.stopProcess, .AndroidRuntime_onExit 0] ∧
        Event.stopProcess ∉ pre) ∧
      stopCalls (drive quietJni (lifecycle st.zygote 0)
        ⟨rt, (main quietEnv zeroGlobals "app_process"
          ["/system/bin", "com.example.Tool"]).proc⟩).proc.trace = 1 ∧
      (∀ s, stopCalls (onZygoteInit s).proc.trace = stopCalls s.proc.trace ∧
        Event.startThreadPool ∈ (onZygoteInit s).proc.trace) :=
  ⟨by decide,
    C12_stopProcess_exactly_once quietEnv zeroGlobals "app_process"
      ["/system/bin", "com.example.Tool"] quietJni 0
      "de.robv.android.xposed.XposedBridge" "tool" (by decide)⟩

/-- C13, as stated, fails when `--nice-name=` comes before `--zygote`: on
`/system/bin --nice-name=foo --zygote` the scan ends with `niceName = "zygote"`, not
`"foo"`, and the process is renamed to `zygote`. -/
theorem C13_counterexample_nice_name_before_zygote :
    mainScan quietEnv ["/system/bin", "--nice-name=foo", "--zygote"] =
      .ok { i := 3, zygote := true, startSystemServer := false, application := false,
            parentDir := some "/system/bin", niceName := some "zygote", className := none } ∧
    Event.set_process_name "zygote" ∈ (main quietEnv zeroGlobals "app_process"
      ["/system/bin", "--nice-name=foo", "--zygote"]).proc.trace ∧
    Event.set_process_name "foo" ∉ (main quietEnv zeroGlobals "app_process"
      ["/system/bin", "--nice-name=foo", "--zygote"]).proc.trace :=
  ⟨rfl, by decide, by decide⟩

/-- C13 (amended): the last `--zygote` or `--nice-name=` token among the scanned flags
decides `niceName`. When the scanned flags contain `--zygote` and no `--nice-name=` token
comes after it, the final `niceName` is `"zygote"`; when they contain a `--nice-name=`
token with neither `--zygote` nor another `--nice-name=` token after it, the final
`niceName` is the suffix of that token, and that token is exactly the 12 characters
`--nice-name=` followed by the suffix. -/
theorem C13_last_nice_name_token_wins (env : Env) (args : List String) (tok : String)
    (h : args[env.addVmArguments args.length args]? = some tok) :
    ∃ st, mainScan env args = .ok st ∧
      (∀ pre post, scannedFlags args (env.addVmArguments args.length args) =
          pre ++ "--zygote" :: post →
        (∀ f ∈ post, isNiceNameArg f = false) → st.niceName = some "zygote") ∧
      (∀ pre nn post, scannedFlags args (env.addVmArguments args.length args) =
          pre ++ nn :: post →
        isNiceNameArg nn = true →
        (∀ f ∈ post, f ≠ "--zygote" ∧ isNiceNameArg f = false) →
        st.niceName = some (niceNameSuffix nn) ∧
        nn.data = "--nice-name=".data ++ (niceNameSuffix nn).data ∧
        "--nice-name=".data.length = 12) := by
  obtain ⟨_, _, _, _, f5, _, _⟩ := scanResult_fields args _ tok h
  refine ⟨_, mainScan_eq env args, ?_, ?_⟩
  · intro pre post hsf hpost
    rw [f5, hsf, niceNameOf_append, List.foldl_cons]
    simp only [if_true]
    exact niceName_fold_zygote post hpost
  · intro pre nn post hsf hnn hpost
    refine ⟨?_, isNiceNameArg_data nn hnn, by decide⟩
    rw [f5, hsf, niceNameOf_append, List.foldl_cons]
    have hz : nn ≠ "--zygote" := by
      rintro rfl
      revert hnn
      decide
    rw [if_neg hz, hnn]
    simp only [if_true]
    exact niceName_fold_keep post _ hpost

/-- C13 (amended) at `/system/bin --zygote --nice-name=foo`: `niceName` is `"foo"`. -/
theorem C13_last_nice_name_witness :
    ["/system/bin", "--zygote", "--nice-name=foo"][quietEnv.addVmArguments
      ["/system/bin", "--zygote", "--nice-name=foo"].length
      ["/system/bin", "--zygote", "--nice-name=foo"]]? = some "/system/bin" ∧
    mainScan quietEnv ["/system/bin", "--zygote", "--nice-name=foo"] =
      .ok { i := 3, zygote := true, startSystemServer := false, application := false,
            parentDir := some "/system/bin", niceName := some "foo", className := none } ∧
    ∃ st, mainScan quietEnv ["/system/bin", "--zygote", "--nice-name=foo"] = .ok st ∧
      (∀ pre post, scannedFlags ["/system/bin", "--zygote", "--nice-name=foo"]
          (quietEnv.addVmArguments ["/system/bin", "--zygote", "--nice-name=foo"].length
            ["/system/bin", "--zygote", "--nice-name=foo"]) =
          pre ++ "--zygote" :: post →
        (∀ f ∈ post, isNiceNameArg f = false) → st.niceName = some "zygote") ∧
      (∀ pre nn post, scannedFlags ["/system/bin", "--zygote", "--nice-name=foo"]
          (quietEnv.addVmArguments ["/system/bin", "--zygote", "--nice-name=foo"].length
            ["/system/bin", "--zygote", "--nice-name=foo"]) =
          pre ++ nn :: post →
        isNiceNameArg nn = true →
        (∀ f ∈ post, f ≠ "--zygote" ∧ isNiceNameArg f = false) →
        st.niceName = some (niceNameSuffix nn) ∧
        nn.data = "--nice-name=".data ++ (niceNameSuffix nn).data ∧
        "--nice-name=".data.length = 12) :=
  ⟨rfl, rfl,
    C13_last_nice_name_token_wins quietEnv ["/system/bin", "--zygote", "--nice-name=foo"]
      "/system/bin" rfl⟩

/-- C14, as stated, fails: in the state `main` leaves for `/system/bin --zygote`, where
`mClassName` is `NULL` and `keepLoadingXposed` is true, `onVmCreated` calls
`xposedOnVmCreated(env, NULL)` and stores its answer, here false, in
`keepLoadingXposed`. -/
theorem C14_counterexample_xposedOnVmCreated :
    (main quietEnv zeroGlobals "app_process" ["/system/bin", "--zygote"]).runtime =
      some { mParentDir := some "/system/bin", mClassName := none, mClass := none,
             mArgC := 0, mArgV := none } ∧
    (main quietEnv zeroGlobals "app_process"
      ["/system/bin", "--zygote"]).proc.globals.keepLoadingXposed = true ∧
    (onVmCreated refusingJni
      ⟨{ mParentDir := some "/system/bin", mClassName := none, mClass := none,
         mArgC := 0, mArgV := none },
       (main quietEnv zeroGlobals "app_process" ["/system/bin", "--zygote"]).proc⟩).proc.trace =
      (main quietEnv zeroGlobals "app_process" ["/system/bin", "--zygote"]).proc.trace ++
        [.xposedOnVmCreated none] ∧
    (onVmCreated refusingJni
      ⟨{ mParentDir := some "/system/bin", mClassName := none, mClass := none,
         mArgC := 0, mArgV := none },
       (main quietEnv zeroGlobals "app_process"
        ["/system/bin", "--zygote"]).proc⟩).proc.globals.keepLoadingXposed = false := by
  refine ⟨by decide, by decide, by decide, by decide⟩

/-- C14 (amended): whenever `mClassName` is `NULL`, `onVmCreated` makes exactly one external
call, `xposedOnVmCreated(env, NULL)`, assigns its answer to `keepLoadingXposed`, and returns:
the runtime object, `mClass` included, and every other part of the process state are
unchanged. -/
theorem C14_onVmCreated_zygote (jni : Jni) (s : RuntimeState)
    (h : s.runtime.mClassName = none) :
    onVmCreated jni s =
      { runtime := s.runtime,
        proc := { s.proc with
          trace := s.proc.trace ++ [.xposedOnVmCreated none],
          globals := { s.proc.globals with
            keepLoadingXposed := jni.xposedOnVmCreated none } } } := by
  obtain ⟨rt, p⟩ := s
  obtain ⟨pd, cn, cl, ac, av⟩ := rt
  simp only at h
  subst h
  rfl

/-- C14 (amended) in the state of a freshly constructed runtime object. -/
theorem C14_onVmCreated_zygote_witness :
    (⟨AppRuntime.init, Proc.start quietEnv zeroGlobals "app_process"⟩ :
      RuntimeState).runtime.mClassName = none ∧
    onVmCreated quietJni ⟨AppRuntime.init, Proc.start quietEnv zeroGlobals "app_process"⟩ =
      { runtime := AppRuntime.init,
        proc := { Proc.start quietEnv zeroGlobals "app_process" with
          trace := (Proc.start quietEnv zeroGlobals "app_process").trace ++
            [.xposedOnVmCreated none],
          globals := { (Proc.start quietEnv zeroGlobals "app_process").globals with
            keepLoadingXposed := quietJni.xposedOnVmCreated none } } } :=
  ⟨rfl, C14_onVmCreated_zygote quietJni
    ⟨AppRuntime.init, Proc.start quietEnv zeroGlobals "app_process"⟩ rfl⟩

/-- C15: for every environment, `main` called with the single argument `--xposedversion`
returns 0 having made one call, the `printf` of the version string; with the single
argument `--xposedtestsafemode` it returns 0 having printed the banner, called
`xposedSkipSafemodeDelay()` and `detectSafemodeTrigger` once each, and printed the outcome.
In both cases nothing else is called (no fixup, no `addVmArguments`, no gate, no rename, no
`disableXposed`, no `runtime.start`), no runtime object is constructed, and the globals,
the environment, the personality and the memory at `argv[0]` are as at entry. -/
theorem C15_diagnostic_subcommands (env : Env) (g : Globals) (argv0 : String) :
    main env g argv0 ["--xposedversion"] =
      { outcome := .returned 0,
        proc := { Proc.start env g argv0 with
          trace := [.printf ("Xposed version: " ++ env.XPOSED_VERSION ++ "\n")] },
        runtime := none } ∧
    (main env g argv0 ["--xposedversion"]).proc.globals = g ∧
    main env g argv0 ["--xposedtestsafemode"] =
      { outcome := .returned 0,
        proc := { Proc.start env g argv0 with
          trace := [.printf "Testing Xposed safemode trigger\n", .xposedSkipSafemodeDelay,
            .detectSafemodeTrigger env.xposedSkipSafemodeDelay,
            .printf (if env.detectSafemodeTrigger env.xposedSkipSafemodeDelay
              then "Safemode triggered\n" else "Safemode not triggered\n")] },
        runtime := none } ∧
    (main env g argv0 ["--xposedtestsafemode"]).proc.globals = g := by
  refine ⟨rfl, rfl, ?_, ?_⟩
  · simp only [main, Proc.emit, Proc.start]
    cases env.detectSafemodeTrigger env.xposedSkipSafemodeDelay <;> simp
  · simp only [main, Proc.emit, Proc.start]
    cases env.detectSafemodeTrigger env.xposedSkipSafemodeDelay <;> simp

/-- C16: the code at `argv0 = "app_process"` (11 characters) and
`newArgv0 = "system_server"` (13 characters): the string left at `argv[0]` is
`"system_ser"`, 10 characters, although the 11-character prefix `"system_serv"` fits in
the original storage; `main` reaches this call on
`app_process /system/bin --nice-name=system_server com.example.Tool`. -/
theorem C16_setArgv0_loses_one_character :
    cstr (main quietEnv zeroGlobals "app_process"
      ["/system/bin", "--nice-name=system_server", "com.example.Tool"]).proc.argv0
      = "system_ser".data ∧
    strlen ("app_process".data ++ [NUL]) = 11 ∧
    cstr (setArgv0 ("app_process".data ++ [NUL]) "system_server".data) = "system_ser".data ∧
    (cstr (setArgv0 ("app_process".data ++ [NUL]) "system_server".data)).length = 10 ∧
    "system_server".data.take (min "system_server".data.length 11) = "system_serv".data ∧
    cstr (setArgv0 ("app_process".data ++ [NUL]) "system_server".data) ≠
      "system_server".data.take (min "system_server".data.length 11) := by
  decide

/-- C17: on a run that the compat fixup lets continue, when `--zygote` is among the scanned
flags `main` takes the Zygote branch whatever follows: it calls `runtime.start` once, with
the Zygote entry class and the Zygote start argument, and the runtime object keeps
`mClassName = NULL`, `mArgC = 0`, `mArgV = NULL` (only `mParentDir` is set). On that
object `onVmCreated` returns right after `xposedOnVmCreated(env, NULL)` without touching
the object, and `onExit` calls `stopProcess` before `AndroidRuntime::onExit`, as for a
supervisor started without a class name. -/
theorem C17_zygote_takes_precedence (env : Env) (g : Globals) (argv0 : String)
    (args : List String)
    (hf : (compatFixup env (argv0 :: args) (Proc.start env g argv0)).1 = none)
    (hz : "--zygote" ∈ scannedFlags args (env.addVmArguments args.length args)) :
    ∃ st, mainScan env args = .ok st ∧ st.zygote = true ∧
      (main env g argv0 args).runtime =
        some { mParentDir := st.parentDir, mClassName := none, mClass := none,
               mArgC := 0, mArgV := none } ∧
      Event.runtimeStart
          (if (main env g argv0 args).proc.globals.keepLoadingXposed
            then env.XPOSED_CLASS_DOTS else "com.android.internal.os.ZygoteInit")
          (if st.startSystemServer then "start-system-server" else "")
        ∈ (main env g argv0 args).proc.trace ∧
      startCalls (main env g argv0 args).proc.trace = 1 ∧
      (∀ (jni : Jni) (p : Proc),
        (onVmCreated jni ⟨{ AppRuntime.init with mParentDir := st.parentDir }, p⟩).runtime =
          { AppRuntime.init with mParentDir := st.parentDir } ∧
        (onVmCreated jni ⟨{ AppRuntime.init with mParentDir := st.parentDir }, p⟩).proc.trace =
          p.trace ++ [.xposedOnVmCreated none]) ∧
      (∀ (code : Int) (p : Proc),
        (onExit code ⟨{ AppRuntime.init with mParentDir := st.parentDir }, p⟩).proc.trace =
          p.trace ++ [.stopProcess, .AndroidRuntime_onExit code]) := by
  have hlen := scannedFlags_nonempty_bound args _ _ hz
  have hv : args ≠ ["--xposedversion"] := fun h => by
    rw [h] at hlen; simp at hlen
  have hs : args ≠ ["--xposedtestsafemode"] := fun h => by
    rw [h] at hlen; simp at hlen
  obtain ⟨_, f2, _, _, _, _, _⟩ := scanResult_fields args
    (env.addVmArguments args.length args) _
    (List.getElem?_eq_getElem (by omega : env.addVmArguments args.length args < args.length))
  have hzy : (scanResult args (env.addVmArguments args.length args)).zygote = true := by
    rw [f2]; simpa using hz
  obtain ⟨hearly, _⟩ := loopEntry_facts env g argv0 args
  refine ⟨_, mainScan_eq env args, hzy, ?_, ?_, ?_, ?_, ?_⟩
  · rw [main_eq_afterParse env g argv0 args hv hs hf, afterParse_runtime, hzy]
    rfl
  · rw [main_eq_afterParse env g argv0 args hv hs hf,
      afterParse_start_mem _ _ _ _ _ _ hearly, hzy]
    simp
  · rw [main_eq_afterParse env g argv0 args hv hs hf,
      afterParse_startCalls _ _ _ _ _ _ hearly, hzy]
    simp
  · intro jni p
    exact ⟨rfl, rfl⟩
  · intro code p
    simp [onExit, Proc.emit, AppRuntime.init]

/-- C17 at `/system/bin --zygote com.example.Tool x`: the class name and the trailing
argument are dropped. -/
theorem C17_zygote_takes_precedence_witness :
    (compatFixup quietEnv ("app_process" :: ["/system/bin", "--zygote", "com.example.Tool", "x"])
      (Proc.start quietEnv zeroGlobals "app_process")).1 = none ∧
    "--zygote" ∈ scannedFlags ["/system/bin", "--zygote", "com.example.Tool", "x"]
      (quietEnv.addVmArguments ["/system/bin", "--zygote", "com.example.Tool", "x"].length
        ["/system/bin", "--zygote", "com.example.Tool", "x"]) ∧
    mainScan quietEnv ["/system/bin", "--zygote", "com.example.Tool", "x"] =
      .ok { i := 3, zygote := true, startSystemServer := false, application := false,
            parentDir := some "/system/bin", niceName := some "zygote",
            className := some "com.example.Tool" } ∧
    ∃ st, mainScan quietEnv ["/system/bin", "--zygote", "com.example.Tool", "x"] = .ok st ∧
      st.zygote = true ∧
      (main quietEnv zeroGlobals "app_process"
          ["/system/bin", "--zygote", "com.example.Tool", "x"]).runtime =
        some { mParentDir := st.parentDir, mClassName := none, mClass := none,
               mArgC := 0, mArgV := none } ∧
      Event.runtimeStart
          (if (main quietEnv zeroGlobals "app_process"
              ["/system/bin", "--zygote", "com.example.Tool", "x"]).proc.globals.keepLoadingXposed
            then quietEnv.XPOSED_CLASS_DOTS else "com.android.internal.os.ZygoteInit")
          (if st.startSystemServer then "start-system-server" else "")
        ∈ (main quietEnv zeroGlobals "app_process"
            ["/system/bin", "--zygote", "com.example.Tool", "x"]).proc.trace ∧
      startCalls (main quietEnv zeroGlobals "app_process"
        ["/system/bin", "--zygote", "com.example.Tool", "x"]).proc.trace = 1 ∧
      (∀ (jni : Jni) (p : Proc),
        (onVmCreated jni ⟨{ AppRuntime.init with mParentDir := st.parentDir }, p⟩).runtime =
          { AppRuntime.init with mParentDir := st.parentDir } ∧
        (onVmCreated jni ⟨{ AppRuntime.init with mParentDir := st.parentDir }, p⟩).proc.trace =
          p.trace ++ [.xposedOnVmCreated none]) ∧
      (∀ (code : Int) (p : Proc),
        (onExit code ⟨{ AppRuntime.init with mParentDir := st.parentDir }, p⟩).proc.trace =
          p.trace ++ [.stopProcess, .AndroidRuntime_onExit code]) :=
  ⟨rfl, by decide, rfl,
    C17_zygote_takes_precedence quietEnv zeroGlobals "app_process"
      ["/system/bin", "--zygote", "com.example.Tool", "x"] rfl (by decide)⟩

/-- C18: for every vector `args` of length `argc` and every start index `i0 ≤ argc`, the
loop, bounded to `argc - i0` iterations and with every read of `argv` checked against the
vector, returns locals `st` (it neither runs out of iterations nor reads out of bounds)
with `i0 ≤ st.i ≤ argc`; so `argc - st.i` is not negative, and the `mArgC` and `mArgV` that
`main` then hands to the runtime are not negative and within the vector; a class name,
when found, is `argv[st.i - 1]`. -/
theorem C18_scan_index_safety (args : List String) (i0 : Nat) (h : i0 ≤ args.length) :
    ∃ st, parseLoop args.length args (args.length - i0) (Locals.init i0) = .ok st ∧
      i0 ≤ st.i ∧ st.i ≤ args.length ∧
      0 ≤ (args.length : Int) - (st.i : Int) ∧
      (∀ c, st.className = some c → 1 ≤ st.i ∧ args[st.i - 1]? = some c) ∧
      (∀ (env : Env) (p : Proc), ∃ rt,
        (afterParse env args.length args st AppRuntime.init p).runtime = some rt ∧
        0 ≤ rt.mArgC ∧
        (rt.mArgV = none ∨ rt.mArgV = some (args.drop st.i))) := by
  obtain ⟨h1, h2, h3⟩ := scanResult_index args i0 h
  refine ⟨_, parseLoop_eq_scanResult args i0, h1, h2, by omega, h3, ?_⟩
  intro env p
  refine ⟨_, afterParse_runtime env args.length args _ _ p, ?_⟩
  generalize scanResult args i0 = st at h2
  obtain ⟨i, z, sss, app, pd, nn, cn⟩ := st
  cases z <;> cases cn <;> simp [AppRuntime.init]
  simp only at h2
  omega

/-- C18 at `/system/bin com.example.Tool --flag x` with `i0 = 0`: the loop stops at
`i = 2` with `className = argv[1]`. -/
theorem C18_scan_index_safety_witness :
    0 ≤ ["/system/bin", "com.example.Tool", "--flag", "x"].length ∧
    parseLoop 4 ["/system/bin", "com.example.Tool", "--flag", "x"] 4 (Locals.init 0) =
      .ok { i := 2, zygote := false, startSystemServer := false, application := false,
            parentDir := some "/system/bin", niceName := none,
            className := some "com.example.Tool" } ∧
    ∃ st, parseLoop ["/system/bin", "com.example.Tool", "--flag", "x"].length
        ["/system/bin", "com.example.Tool", "--flag", "x"]
        (["/system/bin", "com.example.Tool", "--flag", "x"].length - 0) (Locals.init 0) = .ok st ∧
      0 ≤ st.i ∧ st.i ≤ ["/system/bin", "com.example.Tool", "--flag", "x"].length ∧
      0 ≤ ((["/system/bin", "com.example.Tool", "--flag", "x"].length : Nat) : Int) - (st.i : Int) ∧
      (∀ c, st.className = some c →
        1 ≤ st.i ∧ ["/system/bin", "com.example.Tool", "--flag", "x"][st.i - 1]? = some c) ∧
      (∀ (env : Env) (p : Proc), ∃ rt,
        (afterParse env ["/system/bin", "com.example.Tool", "--flag", "x"].length
          ["/system/bin", "com.example.Tool", "--flag", "x"] st AppRuntime.init p).runtime
            = some rt ∧
        0 ≤ rt.mArgC ∧
        (rt.mArgV = none ∨
          rt.mArgV = some (["/system/bin", "com.example.Tool", "--flag", "x"].drop st.i))) :=
  ⟨by decide, rfl,
    C18_scan_index_safety ["/system/bin", "com.example.Tool", "--flag", "x"] 0 (by decide)⟩

end AppMain
